import Mathlib

/-!
Verification of the school-go scraping/normalization pipeline.

This file is a shallow embedding of the Go sources:
  internal/scraper/school_details_scraper.go  (cache, table extractor, name split, harvest loop)
  internal/scraper normalizers                (NormalizeCitizenshipTable and friends)
  internal/repository SchoolStatisticsRepository (delete-then-insert statistic saves)
  internal/service SchoolDetailService        (ScrapeAndStoreDetails, saveNormalizedStatistics)

Modelling conventions:
  Go `int` is modelled as `Int` (with the int64 range check of strconv.Atoi made
  explicit), Go `float64` values produced by strconv.ParseFloat are modelled as
  exact rationals (the decimal value denoted by the accepted string; binary
  rounding and the overflow-to-infinity range error are outside the model),
  `time.Time` values as `Nat` instants, Go `nil` pointers as `Option.none`,
  the filesystem as a map from paths to byte lists, and the SQL tables as lists
  of rows.  External libraries (chromedp, net/html parsing of a byte stream,
  crypto/sha256, encoding/json) are modelled at their interface: html.Parse is
  represented by the node tree it produces, SHA-256 key derivation by an
  injective hex encoding, and the JSON codec by an executable length-prefixed
  codec with a proven partial-inverse decoder.
-/

/-! ### Go string primitives (package strings), modelled on `List Char` -/

/-- The whitespace predicate of Go's strings.TrimSpace (unicode.IsSpace),
restricted to the Latin-1 range; whitespace outside Latin-1 is not modelled. -/
def isGoSpace (c : Char) : Bool :=
  c = ' ' || c = '\t' || c = '\n' || c = '\r' ||
  c.toNat = 11 || c.toNat = 12 || c.toNat = 133 || c.toNat = 160

/-- strings.TrimSpace: drop leading and trailing whitespace. -/
def goTrimSpace (s : String) : String :=
  String.mk (((s.data.dropWhile isGoSpace).reverse.dropWhile isGoSpace).reverse)

/-- Core of strings.Split for a non-empty separator: left-to-right scan,
splitting at every non-overlapping occurrence.  The fuel argument makes the
recursion structural; fuel is always instantiated with the length of the
scanned list, which suffices since every step consumes at least one element. -/
def splitFuel (sep : List Char) : Nat → List Char → List (List Char)
  | _, [] => [[]]
  | 0, l => [l]
  | fuel + 1, c :: rest =>
    if sep ≠ [] ∧ sep.isPrefixOf (c :: rest) then
      [] :: splitFuel sep fuel (List.drop (sep.length - 1) rest)
    else
      match splitFuel sep fuel rest with
      | [] => [[c]]
      | seg :: segs => (c :: seg) :: segs

/-- strings.Split (the separators used in this repository are all non-empty;
an empty separator is not modelled and yields the whole string). -/
def goSplit (s sep : String) : List String :=
  (splitFuel sep.data s.data.length s.data).map String.mk

/-- strings.Join. -/
def goJoin (parts : List String) (sep : String) : String :=
  String.mk (List.intercalate sep.data (parts.map String.data))

/-- strings.ReplaceAll, via the documented equivalence
Replace(s, old, new, -1) = Join(Split(s, old), new). -/
def goReplaceAll (s old new : String) : String :=
  goJoin (goSplit s old) new

/-- Core of strings.Contains: scan for the pattern as a prefix of some suffix. -/
def containsCore (sub : List Char) : List Char → Bool
  | [] => sub.isPrefixOf []
  | c :: rest => sub.isPrefixOf (c :: rest) || containsCore sub rest

/-- strings.Contains. -/
def goContains (s sub : String) : Bool :=
  containsCore sub.data s.data

/-- strings.ToLower, restricted to ASCII letters (the category labels the
repository matches against are ASCII). -/
def goToLower (s : String) : String :=
  String.mk (s.data.map fun c => if 'A' ≤ c && c ≤ 'Z' then Char.ofNat (c.toNat + 32) else c)

/-! ### Numeric parsing (package strconv) -/

/-- Numeric value of a digit list (most significant first). -/
def digitsVal (ds : List Char) : Nat :=
  ds.foldl (fun a c => 10 * a + (c.toNat - 48)) 0

/-- strconv.Atoi: optional sign, then decimal digits only; the int64 range
check is explicit.  `none` models a returned error. -/
def goAtoi (s : String) : Option Int :=
  let (sign, ds) : Int × List Char :=
    match s.data with
    | '+' :: t => (1, t)
    | '-' :: t => (-1, t)
    | t => (1, t)
  if ds = [] then none
  else if ds.all Char.isDigit then
    let n : Int := sign * (digitsVal ds : Int)
    if -(2 ^ 63) ≤ n ∧ n < 2 ^ 63 then some n else none
  else none

/-- Split a char list into its leading digit run and the remainder. -/
def spanDigits (l : List Char) : List Char × List Char :=
  (l.takeWhile Char.isDigit, l.dropWhile Char.isDigit)

/-- Exact decimal value `num / 10 ^ pow10`, the model of a Go float64 obtained
from strconv.ParseFloat: the decimal number denoted by the parsed string,
kept exact instead of rounded to binary. -/
structure GoFloat where
  num : Int
  pow10 : Nat
deriving DecidableEq

/-- The rational value of a modelled float. -/
def GoFloat.toQ (x : GoFloat) : ℚ := (x.num : ℚ) / 10 ^ x.pow10

/-- The float 0.0. -/
def goFloatZero : GoFloat := ⟨0, 0⟩

/-- strconv.ParseFloat on the plain decimal grammar
[sign] digits [. digits] [e|E [sign] digits], evaluated exactly.
At least one mantissa digit is required; `none` models a returned error.
Hex floats, inf/nan spellings, digit-separating underscores and the
overflow-to-infinity range error are outside the model. -/
def goParseFloat (s : String) : Option GoFloat :=
  let (sign, l1) : Int × List Char :=
    match s.data with
    | '+' :: t => (1, t)
    | '-' :: t => (-1, t)
    | t => (1, t)
  let (intDigits, l2) := spanDigits l1
  let (fracDigits, l3) :=
    match l2 with
    | '.' :: t => spanDigits t
    | _ => ([], l2)
  let l4 := if l2.head? = some '.' then l3 else l2
  if intDigits = [] ∧ fracDigits = [] then none
  else
    let mant : Int := sign * (digitsVal (intDigits ++ fracDigits) : Int)
    match l4 with
    | [] => some ⟨mant, fracDigits.length⟩
    | e :: t =>
      if e = 'e' ∨ e = 'E' then
        let (eneg, t1) : Bool × List Char :=
          match t with
          | '+' :: t2 => (false, t2)
          | '-' :: t2 => (true, t2)
          | t2 => (false, t2)
        let (eDigits, t2) := spanDigits t1
        if eDigits = [] ∨ t2 ≠ [] then none
        else if eneg then some ⟨mant, fracDigits.length + digitsVal eDigits⟩
        else some ⟨mant * 10 ^ digitsVal eDigits, fracDigits.length⟩
      else none

/-- parseInt from the scraper package: trim, strip spaces, percent signs,
dots (thousands separators) and commas, then Atoi; any failure yields 0. -/
def parseInt (s : String) : Int :=
  let s := goTrimSpace s
  let s := goReplaceAll s " " ""
  let s := goReplaceAll s "%" ""
  let s := goReplaceAll s "." ""
  let s := goReplaceAll s "," ""
  if s = "" then 0
  else match goAtoi s with
    | none => 0
    | some v => v

/-- parseFloat from the scraper package: trim, strip spaces and percent signs,
turn the decimal comma into a decimal point, then ParseFloat; any failure
yields 0. -/
def parseFloat (s : String) : GoFloat :=
  let s := goTrimSpace s
  let s := goReplaceAll s " " ""
  let s := goReplaceAll s "%" ""
  let s := goReplaceAll s "," "."
  if s = "" then goFloatZero
  else match goParseFloat s with
    | none => goFloatZero
    | some v => v

/-! ### Data model (internal/models), with `time.Time` as `Nat` and the four
statistic tables of a detail page as optional values. -/

/-- models.StatisticTable: generic header/row matrix plus an optional
key-value map (the Go map is modelled as an association list). -/
structure StatisticTable where
  headers : List String
  rows : List (List String)
  data : List (String × String)
deriving DecidableEq

/-- models.SchoolDetailData: the record assembled per harvested page.
DB-assigned columns do not appear here, exactly as in the source struct. -/
structure SchoolDetailData where
  schoolNumber : String
  schoolName : String
  schoolURL : String
  languages : String
  courses : String
  offerings : String
  availableAfter4thGrade : Bool
  additionalInfo : String
  equipment : String
  workingGroups : String
  partners : String
  differentiation : String
  lunchInfo : String
  dualLearning : String
  citizenshipTable : Option StatisticTable
  languageTable : Option StatisticTable
  residenceTable : Option StatisticTable
  absenceTable : Option StatisticTable
  scrapedAt : Nat
deriving DecidableEq

/-- models.SchoolCitizenshipStat as produced by normalization (the
DB-assigned id and created_at columns are added at insert time). -/
structure SchoolCitizenshipStat where
  schoolNumber : String
  citizenship : String
  femaleStudents : Int
  maleStudents : Int
  total : Int
  scrapedAt : Nat
deriving DecidableEq

/-- models.SchoolLanguageStat as produced by normalization. -/
structure SchoolLanguageStat where
  schoolNumber : String
  totalStudents : Int
  ndhFemaleStudents : Int
  ndhMaleStudents : Int
  ndhTotal : Int
  ndhPercentage : GoFloat
  scrapedAt : Nat
deriving DecidableEq

/-- models.SchoolResidenceStat as produced by normalization. -/
structure SchoolResidenceStat where
  schoolNumber : String
  district : String
  studentCount : Int
  scrapedAt : Nat
deriving DecidableEq

/-- models.SchoolAbsenceStat as produced by normalization. -/
structure SchoolAbsenceStat where
  schoolNumber : String
  schoolAbsenceRate : GoFloat
  schoolUnexcusedRate : GoFloat
  schoolTypeAbsenceRate : GoFloat
  schoolTypeUnexcusedRate : GoFloat
  regionAbsenceRate : GoFloat
  regionUnexcusedRate : GoFloat
  berlinAbsenceRate : GoFloat
  berlinUnexcusedRate : GoFloat
  scrapedAt : Nat
deriving DecidableEq

/-! ### Field normalizers (scraper package) -/

/-- NormalizeCitizenshipTable: one record per row with at least 4 cells and a
non-empty trimmed first cell. -/
def NormalizeCitizenshipTable (schoolNumber : String) (table : Option StatisticTable)
    (scrapedAt : Nat) : List SchoolCitizenshipStat :=
  match table with
  | none => []
  | some t =>
    if t.rows.length = 0 then []
    else
      t.rows.filterMap fun row =>
        if row.length < 4 then none
        else
          let citizenship := goTrimSpace (row.getD 0 "")
          if citizenship = "" then none
          else some
            { schoolNumber := schoolNumber
              citizenship := citizenship
              femaleStudents := parseInt (row.getD 1 "")
              maleStudents := parseInt (row.getD 2 "")
              total := parseInt (row.getD 3 "")
              scrapedAt := scrapedAt }

/-- NormalizeLanguageTable: one record read from the LAST row, which must have
at least 5 cells; absent when the table is absent or has fewer than 2 rows. -/
def NormalizeLanguageTable (schoolNumber : String) (table : Option StatisticTable)
    (scrapedAt : Nat) : Option SchoolLanguageStat :=
  match table with
  | none => none
  | some t =>
    if t.rows.length < 2 then none
    else
      let dataRow := (t.rows.getLast?).getD []
      if dataRow.length < 5 then none
      else some
        { schoolNumber := schoolNumber
          totalStudents := parseInt (dataRow.getD 0 "")
          ndhFemaleStudents := parseInt (dataRow.getD 1 "")
          ndhMaleStudents := parseInt (dataRow.getD 2 "")
          ndhTotal := parseInt (dataRow.getD 3 "")
          ndhPercentage := parseFloat (dataRow.getD 4 "")
          scrapedAt := scrapedAt }

/-- NormalizeResidenceTable: one record per row with at least 2 cells and a
trimmed first cell that is neither empty nor the total label "Insgesamt". -/
def NormalizeResidenceTable (schoolNumber : String) (table : Option StatisticTable)
    (scrapedAt : Nat) : List SchoolResidenceStat :=
  match table with
  | none => []
  | some t =>
    if t.rows.length = 0 then []
    else
      t.rows.filterMap fun row =>
        if row.length < 2 then none
        else
          let district := goTrimSpace (row.getD 0 "")
          if district = "" ∨ district = "Insgesamt" then none
          else some
            { schoolNumber := schoolNumber
              district := district
              studentCount := parseInt (row.getD 1 "")
              scrapedAt := scrapedAt }

/-- The zero-initialized absence record (Go zero values for every rate). -/
def initAbsence (schoolNumber : String) (scrapedAt : Nat) : SchoolAbsenceStat :=
  { schoolNumber := schoolNumber
    schoolAbsenceRate := goFloatZero
    schoolUnexcusedRate := goFloatZero
    schoolTypeAbsenceRate := goFloatZero
    schoolTypeUnexcusedRate := goFloatZero
    regionAbsenceRate := goFloatZero
    regionUnexcusedRate := goFloatZero
    berlinAbsenceRate := goFloatZero
    berlinUnexcusedRate := goFloatZero
    scrapedAt := scrapedAt }

/-- One loop iteration of NormalizeAbsenceTable: rows with fewer than 3 cells
are skipped; otherwise the lowercased, trimmed label selects which pair of
rate fields is overwritten. -/
def absRowStep (st : SchoolAbsenceStat) (row : List String) : SchoolAbsenceStat :=
  if row.length < 3 then st
  else
    let label := goTrimSpace (goToLower (row.getD 0 ""))
    let totalRate := parseFloat (row.getD 1 "")
    let unexcusedRate := parseFloat (row.getD 2 "")
    if goContains label "schule" ∧ ¬ goContains label "schulart" then
      { st with schoolAbsenceRate := totalRate, schoolUnexcusedRate := unexcusedRate }
    else if goContains label "schulart" then
      { st with schoolTypeAbsenceRate := totalRate, schoolTypeUnexcusedRate := unexcusedRate }
    else if goContains label "region" then
      { st with regionAbsenceRate := totalRate, regionUnexcusedRate := unexcusedRate }
    else if goContains label "berlin" then
      { st with berlinAbsenceRate := totalRate, berlinUnexcusedRate := unexcusedRate }
    else st

/-- NormalizeAbsenceTable: absent when the table is absent or has fewer than
4 rows; otherwise a single record built by scanning every row. -/
def NormalizeAbsenceTable (schoolNumber : String) (table : Option StatisticTable)
    (scrapedAt : Nat) : Option SchoolAbsenceStat :=
  match table with
  | none => none
  | some t =>
    if t.rows.length < 4 then none
    else some (t.rows.foldl absRowStep (initAbsence schoolNumber scrapedAt))

/-! ### Table extractor (parseTableHTML in school_details_scraper.go)

The fragment handed to parseTableHTML is parsed by golang.org/x/net/html,
which never fails on in-memory input; the external parser is modelled by the
node tree it produces (element nodes with ordered children, and text nodes).
The tree type is a mutual inductive so that all traversals are structural
recursion and evaluate inside the kernel. -/

mutual
/-- A node of the parsed HTML document: `x/net/html.Node` restricted to the
element and text kinds the extractor inspects. -/
inductive HNode where
  | text : String → HNode
  | elem : String → HNodeList → HNode
deriving DecidableEq
/-- An ordered sibling list of HTML nodes. -/
inductive HNodeList where
  | nil : HNodeList
  | cons : HNode → HNodeList → HNodeList
deriving DecidableEq
end

/-- Build a sibling list from a Lean list. -/
def toHNodeList : List HNode → HNodeList
  | [] => .nil
  | n :: rest => .cons n (toHNodeList rest)

mutual
/-- extractText: a text node yields its trimmed data; an element yields the
trimmed concatenation of its children's extracted text. -/
def extractText : HNode → String
  | .text s => goTrimSpace s
  | .elem _ cs => goTrimSpace (extractTextList cs)
/-- Concatenation of extracted text over a sibling list. -/
def extractTextList : HNodeList → String
  | .nil => ""
  | .cons c rest => extractText c ++ extractTextList rest
end

mutual
/-- findTable: depth-first search for the first `table` element. -/
def findTable : HNode → Option HNode
  | .text _ => none
  | .elem tag cs => if tag = "table" then some (.elem tag cs) else findTableList cs
/-- findTable over a sibling list, first hit wins. -/
def findTableList : HNodeList → Option HNode
  | .nil => none
  | .cons c rest =>
    match findTable c with
    | some r => some r
    | none => findTableList rest
end

/-- The cells of a `tr` element: extracted text of each `th`/`td` child, in
document order. -/
def rowCells : HNodeList → List String
  | .nil => []
  | .cons c rest =>
    match c with
    | .elem tag cs =>
      if tag = "th" ∨ tag = "td" then extractText (.elem tag cs) :: rowCells rest
      else rowCells rest
    | .text _ => rowCells rest

/-- Mutable state of the row-collecting closure in parseTableHTML. -/
structure TState where
  headers : List String
  rows : List (List String)
  isFirstRow : Bool
deriving DecidableEq

/-- The `tr` case of parseNode: a row with cells becomes the headers when it
is inside a `thead` or is the first row seen (overwriting any previous
headers), and a data row otherwise. -/
def trStep (cells : List String) (inThead : Bool) (st : TState) : TState :=
  if cells = [] then st
  else if inThead ∨ st.isFirstRow then ⟨cells, st.rows, false⟩
  else ⟨st.headers, st.rows ++ [cells], st.isFirstRow⟩

mutual
/-- parseNode: `thead` recurses with the header flag set and stops; `tbody`
recurses with it cleared and stops; a `tr` records its cells and, like every
other element, still recurses into its children. -/
def parseNode : HNode → Bool → TState → TState
  | .text _, _, st => st
  | .elem tag cs, inThead, st =>
    if tag = "thead" then parseNodeList cs true st
    else if tag = "tbody" then parseNodeList cs false st
    else
      let st1 := if tag = "tr" then trStep (rowCells cs) inThead st else st
      parseNodeList cs inThead st1
/-- parseNode folded over a sibling list. -/
def parseNodeList : HNodeList → Bool → TState → TState
  | .nil, _, st => st
  | .cons c rest, inThead, st => parseNodeList rest inThead (parseNode c inThead st)
end

/-- parseTableHTML on the parsed fragment tree: absent when no `table`
element exists, otherwise the headers and rows collected by parseNode.
The source's guard for an empty input string is subsumed by the no-table
case (an empty fragment parses to a tree without a table element). -/
def parseTableHTML (doc : HNode) : Option StatisticTable :=
  match findTable doc with
  | none => none
  | some tableNode =>
    let st := parseNode tableNode false ⟨[], [], true⟩
    some { headers := st.headers, rows := st.rows, data := [] }

/-- A `td` cell holding one text node. -/
def mkTd (s : String) : HNode := .elem "td" (toHNodeList [.text s])

/-- A `tr` row of plain `td` cells. -/
def mkTr (cells : List String) : HNode := .elem "tr" (toHNodeList (cells.map mkTd))

/-- A `table` element with the given children. -/
def mkTable (children : List HNode) : HNode := .elem "table" (toHNodeList children)

/-- A `thead` wrapping the given rows. -/
def mkThead (rs : List (List String)) : HNode := .elem "thead" (toHNodeList (rs.map mkTr))

/-- A `tbody` wrapping the given rows. -/
def mkTbody (rs : List (List String)) : HNode := .elem "tbody" (toHNodeList (rs.map mkTr))

/-- An html/body document wrapper, as x/net/html produces around a fragment. -/
def mkDoc (body : List HNode) : HNode :=
  .elem "html" (toHNodeList [.elem "head" .nil, .elem "body" (toHNodeList body)])

/-! ### School name / number split (parseSchoolNameAndNumber) -/

/-- parseSchoolNameAndNumber: split on " - ", rejoin all but the last part as
the name, take the last part as the number, trimming both; without a
separator the whole trimmed string is the name. -/
def parseSchoolNameAndNumber (fullName : String) : String × String :=
  if fullName = "" then ("", "")
  else
    let parts := goSplit fullName " - "
    if parts.length ≥ 2 then
      (goTrimSpace (goJoin parts.dropLast " - "), goTrimSpace ((parts.getLast?).getD ""))
    else (goTrimSpace fullName, "")

/-- Rendering of the specification's words for the split (used to compare the
implementation against the spec): the name is everything before the LAST
OCCURRENCE of " - " in the string, the id everything after it; if the
delimiter is absent the whole string is the name and the id is empty. -/
def specSplitAtLastDelim (s : String) : String × String :=
  let sep := (" - ").data
  let occs := (List.range (s.data.length + 1)).filter fun i => sep.isPrefixOf (s.data.drop i)
  match occs.getLast? with
  | none => (s, "")
  | some i => (String.mk (s.data.take i), String.mk (s.data.drop (i + 3)))

/-! ### Content cache (loadFromCache / saveToCache)

The filesystem is a map from paths to optional byte lists; os.ReadFile on a
missing path is `none`.  encoding/json (an external library) is modelled by
an executable length-prefixed codec whose decoder is a proven partial inverse
of the encoder; a byte list the decoder rejects models a corrupt cache file.
crypto/sha256 key derivation is modelled by an injective fixed-width hex
encoding of the URL (hex alphabet and injectivity are the two properties of
the real hex digest that the cache layout relies on). -/

def FileSys : Type := String → Option (List Nat)

/-- A filesystem with no cache entries. -/
def emptyFS : FileSys := fun _ => none

/-- The cache root directory constant. -/
def cacheDirPath : String := "./cache/school-details"

/-- One lowercase hex digit. -/
def hexDigitChar (n : Nat) : Char :=
  Char.ofNat (if n < 10 then 48 + n else 87 + n)

/-- getCacheKey: the URL's content-addressed key (SHA-256 hex digest in the
source, modelled as a fixed-width injective hex encoding). -/
def getCacheKey (url : String) : String :=
  String.mk (url.data.flatMap fun c =>
    ((List.range 6).reverse).map fun i => hexDigitChar (c.toNat / 16 ^ i % 16))

/-- getCachePath: shard by the first two key characters, ".json" suffix. -/
def getCachePath (url : String) : String :=
  let key := getCacheKey url
  cacheDirPath ++ "/" ++ String.mk (key.data.take 2) ++ "/" ++ key ++ ".json"

/-- Codec: a natural number. -/
def encNat (n : Nat) : List Nat := [n]

/-- Codec: a string, length-prefixed code points. -/
def encStr (s : String) : List Nat := s.data.length :: s.data.map Char.toNat

/-- Codec: a boolean. -/
def encBool (b : Bool) : List Nat := [if b then 1 else 0]

/-- Codec: a string list. -/
def encListStr (l : List String) : List Nat := l.length :: (l.map encStr).flatten

/-- Codec: a row matrix. -/
def encRows (l : List (List String)) : List Nat := l.length :: (l.map encListStr).flatten

/-- Codec: a key-value pair. -/
def encPair (p : String × String) : List Nat := encStr p.1 ++ encStr p.2

/-- Codec: a key-value list. -/
def encPairs (l : List (String × String)) : List Nat := l.length :: (l.map encPair).flatten

/-- Codec: a statistic table. -/
def encTable (t : StatisticTable) : List Nat :=
  encListStr t.headers ++ encRows t.rows ++ encPairs t.data

/-- Codec: an optional statistic table, tagged. -/
def encOptTable : Option StatisticTable → List Nat
  | none => [0]
  | some t => 1 :: encTable t

/-- Codec: the serialized cache entry for one SchoolDetailData record. -/
def encodeDetail (d : SchoolDetailData) : List Nat :=
  encStr d.schoolNumber ++ encStr d.schoolName ++ encStr d.schoolURL ++
  encStr d.languages ++ encStr d.courses ++ encStr d.offerings ++
  encBool d.availableAfter4thGrade ++ encStr d.additionalInfo ++
  encStr d.equipment ++ encStr d.workingGroups ++ encStr d.partners ++
  encStr d.differentiation ++ encStr d.lunchInfo ++ encStr d.dualLearning ++
  encOptTable d.citizenshipTable ++ encOptTable d.languageTable ++
  encOptTable d.residenceTable ++ encOptTable d.absenceTable ++
  encNat d.scrapedAt

/-- Decoder: a natural number. -/
def decNat : List Nat → Option (Nat × List Nat)
  | [] => none
  | n :: rest => some (n, rest)

/-- Decoder: a fixed count of code points. -/
def decChars : Nat → List Nat → Option (List Char × List Nat)
  | 0, l => some ([], l)
  | _ + 1, [] => none
  | n + 1, x :: rest =>
    match decChars n rest with
    | none => none
    | some (cs, l1) => some (Char.ofNat x :: cs, l1)

/-- Decoder: a string. -/
def decStr (l : List Nat) : Option (String × List Nat) :=
  match decNat l with
  | none => none
  | some (n, l1) =>
    match decChars n l1 with
    | none => none
    | some (cs, l2) => some (String.mk cs, l2)

/-- Decoder: a boolean (strict tags). -/
def decBool : List Nat → Option (Bool × List Nat)
  | 0 :: rest => some (false, rest)
  | 1 :: rest => some (true, rest)
  | _ => none

/-- Decoder: a fixed count of values of a given decoder. -/
def decCount {α : Type} (dec : List Nat → Option (α × List Nat)) :
    Nat → List Nat → Option (List α × List Nat)
  | 0, l => some ([], l)
  | n + 1, l =>
    match dec l with
    | none => none
    | some (a, l1) =>
      match decCount dec n l1 with
      | none => none
      | some (as, l2) => some (a :: as, l2)

/-- Decoder: a string list. -/
def decListStr (l : List Nat) : Option (List String × List Nat) :=
  match decNat l with
  | none => none
  | some (n, l1) => decCount decStr n l1

/-- Decoder: a row matrix. -/
def decRows (l : List Nat) : Option (List (List String) × List Nat) :=
  match decNat l with
  | none => none
  | some (n, l1) => decCount decListStr n l1

/-- Decoder: a key-value pair. -/
def decPair (l : List Nat) : Option ((String × String) × List Nat) :=
  match decStr l with
  | none => none
  | some (a, l1) =>
    match decStr l1 with
    | none => none
    | some (b, l2) => some ((a, b), l2)

/-- Decoder: a key-value list. -/
def decPairs (l : List Nat) : Option (List (String × String) × List Nat) :=
  match decNat l with
  | none => none
  | some (n, l1) => decCount decPair n l1

/-- Decoder: a statistic table. -/
def decTable (l : List Nat) : Option (StatisticTable × List Nat) :=
  match decListStr l with
  | none => none
  | some (hs, l1) =>
    match decRows l1 with
    | none => none
    | some (rs, l2) =>
      match decPairs l2 with
      | none => none
      | some (ps, l3) => some (⟨hs, rs, ps⟩, l3)

/-- Decoder: an optional statistic table. -/
def decOptTable : List Nat → Option (Option StatisticTable × List Nat)
  | 0 :: rest => some (none, rest)
  | 1 :: rest =>
    match decTable rest with
    | none => none
    | some (t, l1) => some (some t, l1)
  | _ => none

/-- Decoder: a full cache entry; fails unless every field parses and the
input is consumed exactly. -/
def decodeDetail (l : List Nat) : Option SchoolDetailData :=
  match decStr l with
  | none => none
  | some (schoolNumber, l1) =>
  match decStr l1 with
  | none => none
  | some (schoolName, l2) =>
  match decStr l2 with
  | none => none
  | some (schoolURL, l3) =>
  match decStr l3 with
  | none => none
  | some (languages, l4) =>
  match decStr l4 with
  | none => none
  | some (courses, l5) =>
  match decStr l5 with
  | none => none
  | some (offerings, l6) =>
  match decBool l6 with
  | none => none
  | some (avail, l7) =>
  match decStr l7 with
  | none => none
  | some (additionalInfo, l8) =>
  match decStr l8 with
  | none => none
  | some (equipment, l9) =>
  match decStr l9 with
  | none => none
  | some (workingGroups, l10) =>
  match decStr l10 with
  | none => none
  | some (partners, l11) =>
  match decStr l11 with
  | none => none
  | some (differentiation, l12) =>
  match decStr l12 with
  | none => none
  | some (lunchInfo, l13) =>
  match decStr l13 with
  | none => none
  | some (dualLearning, l14) =>
  match decOptTable l14 with
  | none => none
  | some (citizenshipTable, l15) =>
  match decOptTable l15 with
  | none => none
  | some (languageTable, l16) =>
  match decOptTable l16 with
  | none => none
  | some (residenceTable, l17) =>
  match decOptTable l17 with
  | none => none
  | some (absenceTable, l18) =>
  match decNat l18 with
  | none => none
  | some (scrapedAt, l19) =>
  if l19 = [] then
    some
      { schoolNumber := schoolNumber, schoolName := schoolName, schoolURL := schoolURL
        languages := languages, courses := courses, offerings := offerings
        availableAfter4thGrade := avail, additionalInfo := additionalInfo
        equipment := equipment, workingGroups := workingGroups, partners := partners
        differentiation := differentiation, lunchInfo := lunchInfo
        dualLearning := dualLearning, citizenshipTable := citizenshipTable
        languageTable := languageTable, residenceTable := residenceTable
        absenceTable := absenceTable, scrapedAt := scrapedAt }
  else none

/-- loadFromCache: absent when caching is disabled, the file is missing or
unreadable, or deserialization fails; never an error. -/
def loadFromCache (useCache : Bool) (fs : FileSys) (url : String) :
    Option SchoolDetailData :=
  if ¬ useCache then none
  else
    match fs (getCachePath url) with
    | none => none
    | some bytes =>
      match decodeDetail bytes with
      | none => none
      | some details => some details

/-- saveToCache: a no-op when caching is disabled, otherwise write the
serialized record at the URL's cache path (directory creation and write
errors of the error-free modelled filesystem do not occur). -/
def saveToCache (useCache : Bool) (fs : FileSys) (url : String)
    (details : SchoolDetailData) : FileSys :=
  if ¬ useCache then fs
  else fun p => if p = getCachePath url then some (encodeDetail details) else fs p

/-! ### Persistence sink (SchoolStatisticsRepository and SchoolDetailRepository)

Each SQL table is a list of rows in insertion order; ExecContext of the
error-free modelled database always succeeds, so the error returns of the
save methods do not occur in the model.  Rows carry the created_at column
passed as `now` at insert time. -/

/-- A row of school_citizenship_stats. -/
structure CitizenshipRow where
  stat : SchoolCitizenshipStat
  createdAt : Nat
deriving DecidableEq

/-- A row of school_language_stats. -/
structure LanguageRow where
  stat : SchoolLanguageStat
  createdAt : Nat
deriving DecidableEq

/-- A row of school_residence_stats. -/
structure ResidenceRow where
  stat : SchoolResidenceStat
  createdAt : Nat
deriving DecidableEq

/-- A row of school_absence_stats. -/
structure AbsenceRow where
  stat : SchoolAbsenceStat
  createdAt : Nat
deriving DecidableEq

/-- The four statistic tables. -/
structure StatsDB where
  citizenshipRows : List CitizenshipRow
  languageRows : List LanguageRow
  residenceRows : List ResidenceRow
  absenceRows : List AbsenceRow
deriving DecidableEq

/-- An empty statistics store. -/
def emptyStatsDB : StatsDB := ⟨[], [], [], []⟩

/-- SaveCitizenshipStats: an empty list returns immediately; otherwise delete
every row whose school_number equals that of the first record, then insert
all records. -/
def SaveCitizenshipStats (db : StatsDB) (stats : List SchoolCitizenshipStat)
    (now : Nat) : StatsDB :=
  match stats with
  | [] => db
  | s0 :: _ =>
    { db with citizenshipRows :=
        db.citizenshipRows.filter (fun r => r.stat.schoolNumber ≠ s0.schoolNumber) ++
          stats.map fun s => ⟨s, now⟩ }

/-- SaveLanguageStat: INSERT OR REPLACE keyed by school_number. -/
def SaveLanguageStat (db : StatsDB) (stat : SchoolLanguageStat) (now : Nat) : StatsDB :=
  { db with languageRows :=
      db.languageRows.filter (fun r => r.stat.schoolNumber ≠ stat.schoolNumber) ++
        [⟨stat, now⟩] }

/-- SaveResidenceStats: an empty list returns immediately; otherwise delete
every row whose school_number equals that of the first record, then insert
all records. -/
def SaveResidenceStats (db : StatsDB) (stats : List SchoolResidenceStat)
    (now : Nat) : StatsDB :=
  match stats with
  | [] => db
  | s0 :: _ =>
    { db with residenceRows :=
        db.residenceRows.filter (fun r => r.stat.schoolNumber ≠ s0.schoolNumber) ++
          stats.map fun s => ⟨s, now⟩ }

/-- SaveAbsenceStat: INSERT OR REPLACE keyed by school_number. -/
def SaveAbsenceStat (db : StatsDB) (stat : SchoolAbsenceStat) (now : Nat) : StatsDB :=
  { db with absenceRows :=
      db.absenceRows.filter (fun r => r.stat.schoolNumber ≠ stat.schoolNumber) ++
        [⟨stat, now⟩] }

/-- The citizenship block of saveNormalizedStatistics: normalize the present
table and save when the result is non-empty. -/
def saveCitizenshipStep (db : StatsDB) (detail : SchoolDetailData) (now : Nat) : StatsDB :=
  match detail.citizenshipTable with
  | none => db
  | some _ =>
    let stats := NormalizeCitizenshipTable detail.schoolNumber detail.citizenshipTable
      detail.scrapedAt
    if stats.length > 0 then SaveCitizenshipStats db stats now else db

/-- The language block of saveNormalizedStatistics. -/
def saveLanguageStep (db : StatsDB) (detail : SchoolDetailData) (now : Nat) : StatsDB :=
  match detail.languageTable with
  | none => db
  | some _ =>
    match NormalizeLanguageTable detail.schoolNumber detail.languageTable
      detail.scrapedAt with
    | none => db
    | some stat => SaveLanguageStat db stat now

/-- The residence block of saveNormalizedStatistics. -/
def saveResidenceStep (db : StatsDB) (detail : SchoolDetailData) (now : Nat) : StatsDB :=
  match detail.residenceTable with
  | none => db
  | some _ =>
    let stats := NormalizeResidenceTable detail.schoolNumber detail.residenceTable
      detail.scrapedAt
    if stats.length > 0 then SaveResidenceStats db stats now else db

/-- The absence block of saveNormalizedStatistics. -/
def saveAbsenceStep (db : StatsDB) (detail : SchoolDetailData) (now : Nat) : StatsDB :=
  match detail.absenceTable with
  | none => db
  | some _ =>
    match NormalizeAbsenceTable detail.schoolNumber detail.absenceTable
      detail.scrapedAt with
    | none => db
    | some stat => SaveAbsenceStat db stat now

/-- saveNormalizedStatistics (SchoolDetailService): for each present raw
table in turn, normalize it and save the result, skipping empty normalized
lists and absent normalized singletons; a record without a school number is
a no-op. -/
def saveNormalizedStatistics (db : StatsDB) (detail : SchoolDetailData) (now : Nat) :
    StatsDB :=
  if detail.schoolNumber = "" then db
  else
    saveAbsenceStep
      (saveResidenceStep (saveLanguageStep (saveCitizenshipStep db detail now) detail now)
        detail now)
      detail now

/-- Upsert of the school_details table by natural key school_number
(ON CONFLICT: every mutable field overwritten). -/
def upsertDetail (tbl : List SchoolDetailData) (d : SchoolDetailData) :
    List SchoolDetailData :=
  tbl.filter (fun r => r.schoolNumber ≠ d.schoolNumber) ++ [d]

/-! ### Harvest orchestrator (ScrapeSchoolDetails) and service entry point
(ScrapeAndStoreDetails)

The headless browser is external: ScrapeSchoolDetail is an oracle from a URL
to an optional record, `none` modelling a per-page failure such as a
navigation timeout.  The loop body mirrors the source: cache probe, on hit
accumulate; on miss scrape, on scrape failure log and continue; on success
write the cache and accumulate (the pacing sleep has no observable effect in
the model). -/

/-- The evolving state of the harvest loop. -/
structure ScrapeState where
  details : List SchoolDetailData
  fs : FileSys
  cachedCount : Nat
  scrapedCount : Nat
  failCount : Nat

/-- The summary logged at the end of a scrape run. -/
structure RunSummary where
  total : Nat
  fromCache : Nat
  newlyScraped : Nat
deriving DecidableEq

/-- The per-link loop of ScrapeSchoolDetails. -/
def scrapeLinksLoop (useCache : Bool) (scrape : String → Option SchoolDetailData) :
    List String → ScrapeState → ScrapeState
  | [], st => st
  | link :: rest, st =>
    match loadFromCache useCache st.fs link with
    | some cachedDetails =>
      scrapeLinksLoop useCache scrape rest
        { st with details := st.details ++ [cachedDetails],
                  cachedCount := st.cachedCount + 1 }
    | none =>
      match scrape link with
      | none =>
        scrapeLinksLoop useCache scrape rest { st with failCount := st.failCount + 1 }
      | some details =>
        scrapeLinksLoop useCache scrape rest
          { st with details := st.details ++ [details],
                    fs := saveToCache useCache st.fs link details,
                    scrapedCount := st.scrapedCount + 1 }

/-- ScrapeSchoolDetails over an already-enumerated link list: run the loop
from empty accumulators and log the summary (total = records accumulated). -/
def ScrapeSchoolDetails (useCache : Bool) (scrape : String → Option SchoolDetailData)
    (links : List String) (fs : FileSys) : ScrapeState × RunSummary :=
  let st := scrapeLinksLoop useCache scrape links ⟨[], fs, 0, 0, 0⟩
  (st, ⟨st.details.length, st.cachedCount, st.scrapedCount⟩)

/-- The state of the store phase of ScrapeAndStoreDetails. -/
structure StoreState where
  detailRows : List SchoolDetailData
  statsDB : StatsDB
  successCount : Nat
  errorCount : Nat

/-- The per-record store loop of ScrapeAndStoreDetails: a failed upsert is
counted and skipped; a successful upsert is followed by the best-effort
statistics save.  `upsertOk` is the oracle for database write outcomes. -/
def storeDetailsLoop (upsertOk : SchoolDetailData → Bool) (now : Nat) :
    List SchoolDetailData → StoreState → StoreState
  | [], st => st
  | d :: rest, st =>
    if upsertOk d then
      storeDetailsLoop upsertOk now rest
        { st with detailRows := upsertDetail st.detailRows d,
                  statsDB := saveNormalizedStatistics st.statsDB d now,
                  successCount := st.successCount + 1 }
    else
      storeDetailsLoop upsertOk now rest { st with errorCount := st.errorCount + 1 }

/-- ScrapeAndStoreDetails: scrape, then store every scraped record; the final
Bool is true when the run returns nil (no store errors) and false when it
returns the "completed with N errors" error. -/
def ScrapeAndStoreDetails (useCache : Bool) (scrape : String → Option SchoolDetailData)
    (upsertOk : SchoolDetailData → Bool) (now : Nat) (links : List String)
    (fs : FileSys) (store0 : StoreState) : RunSummary × StoreState × Bool :=
  let (st, summary) := ScrapeSchoolDetails useCache scrape links fs
  let store := storeDetailsLoop upsertOk now st.details store0
  (summary, store, store.errorCount = 0)

/-- A minimal demo record for one URL, used by concrete scenarios. -/
def demoDetail (u : String) : SchoolDetailData :=
  { schoolNumber := u, schoolName := u, schoolURL := u
    languages := "", courses := "", offerings := ""
    availableAfter4thGrade := false, additionalInfo := ""
    equipment := "", workingGroups := "", partners := ""
    differentiation := "", lunchInfo := "", dualLearning := ""
    citizenshipTable := none, languageTable := none
    residenceTable := none, absenceTable := none, scrapedAt := 0 }

/-- The five-link scenario of the failure-isolation property: every cache
probe misses and the third link times out. -/
def demoLinks : List String := ["u1", "u2", "u3", "u4", "u5"]

/-- The scrape oracle of the scenario: link three fails, the rest succeed. -/
def demoScrape (u : String) : Option SchoolDetailData :=
  if u = "u3" then none else some (demoDetail u)

/-- An empty store. -/
def emptyStore : StoreState := ⟨[], emptyStatsDB, 0, 0⟩

/-- The scenario run: caching enabled on a fresh filesystem, database healthy. -/
def demoRun : RunSummary × StoreState × Bool :=
  ScrapeAndStoreDetails true demoScrape (fun _ => true) 9 demoLinks emptyFS emptyStore

/-! ## Theorems -/

/-! ### Helper lemmas -/

theorem splitFuel_ne_nil (sep : List Char) (fuel : Nat) (l : List Char) :
    splitFuel sep fuel l ≠ [] := by
  induction fuel generalizing l with
  | zero => cases l <;> simp [splitFuel]
  | succ n ih =>
    cases l with
    | nil => simp [splitFuel]
    | cons c rest =>
      rw [splitFuel]
      split
      · simp
      · cases h : splitFuel sep n rest <;> simp

theorem intercalate_nil_join {α : Type} (S : List (List α)) :
    List.intercalate [] S = S.flatten := by
  induction S with
  | nil => simp [List.intercalate]
  | cons a t ih =>
    cases t with
    | nil => simp [List.intercalate]
    | cons b t2 =>
      simp only [List.intercalate, List.intersperse] at *
      simp_all [List.flatten]

theorem intercalate_cons_of_ne_nil {α : Type} (sep a : List α) (t : List (List α))
    (h : t ≠ []) : List.intercalate sep (a :: t) = a ++ sep ++ List.intercalate sep t := by
  cases t with
  | nil => exact absurd rfl h
  | cons b t2 => simp [List.intercalate, List.intersperse]

theorem intercalate_cons_head {α : Type} (sep seg : List α) (c : α) (segs : List (List α)) :
    List.intercalate sep ((c :: seg) :: segs) = c :: List.intercalate sep (seg :: segs) := by
  cases segs with
  | nil => simp [List.intercalate]
  | cons b t => simp [List.intercalate, List.intersperse]

theorem splitFuel_flatten_filter (ch : Char) (fuel : Nat) (l : List Char)
    (h : l.length ≤ fuel) :
    (splitFuel [ch] fuel l).flatten = l.filter (fun c => ¬ (c = ch)) := by
  induction fuel generalizing l with
  | zero =>
    have : l = [] := by cases l <;> simp_all
    subst this
    simp [splitFuel]
  | succ n ih =>
    cases l with
    | nil => simp [splitFuel]
    | cons c rest =>
      have hrest : rest.length ≤ n := by simpa using h
      rw [splitFuel]
      by_cases hc : ch = c
      · have hpre : ([ch].isPrefixOf (c :: rest)) = true := by
          simp [List.isPrefixOf, hc]
        rw [if_pos (by simp [hpre])]
        have hd : List.drop ([ch].length - 1) rest = rest := rfl
        rw [hd]
        simp only [List.flatten_cons, List.nil_append]
        rw [ih rest hrest]
        simp [List.filter, hc]
      · have hpre : ([ch].isPrefixOf (c :: rest)) = false := by
          simp [List.isPrefixOf]
          exact hc
        rw [if_neg (by simp [hpre])]
        cases hs : splitFuel [ch] n rest with
        | nil => exact absurd hs (splitFuel_ne_nil _ _ _)
        | cons seg segs =>
          have := ih rest hrest
          rw [hs] at this
          simp only [List.flatten_cons] at this ⊢
          have hfc : List.filter (fun c => decide ¬ (c = ch)) (c :: rest) =
              c :: List.filter (fun c => decide ¬ (c = ch)) rest := by
            simp [List.filter, Ne.symm hc]
          rw [hfc, ← this]
          simp [List.flatten]

theorem splitFuel_intercalate_map (ch d : Char) (fuel : Nat) (l : List Char)
    (h : l.length ≤ fuel) :
    List.intercalate [d] (splitFuel [ch] fuel l) =
      l.map (fun c => if c = ch then d else c) := by
  induction fuel generalizing l with
  | zero =>
    have : l = [] := by cases l <;> simp_all
    subst this
    simp [splitFuel, List.intercalate]
  | succ n ih =>
    cases l with
    | nil => simp [splitFuel, List.intercalate]
    | cons c rest =>
      have hrest : rest.length ≤ n := by simpa using h
      rw [splitFuel]
      by_cases hc : ch = c
      · have hpre : ([ch].isPrefixOf (c :: rest)) = true := by
          simp [List.isPrefixOf, hc]
        rw [if_pos (by simp [hpre])]
        have hd : List.drop ([ch].length - 1) rest = rest := rfl
        rw [hd]
        have hne := splitFuel_ne_nil [ch] n rest
        rw [intercalate_cons_of_ne_nil _ _ _ hne]
        rw [ih rest hrest]
        simp [hc.symm]
      · have hpre : ([ch].isPrefixOf (c :: rest)) = false := by
          simp [List.isPrefixOf]
          exact hc
        rw [if_neg (by simp [hpre])]
        cases hs : splitFuel [ch] n rest with
        | nil => exact absurd hs (splitFuel_ne_nil _ _ _)
        | cons seg segs =>
          rw [intercalate_cons_head]
          have := ih rest hrest
          rw [hs] at this
          rw [this]
          simp [Ne.symm hc]

theorem isPrefixOf_drop_eq {sep l : List Char} (h : sep.isPrefixOf l) :
    sep ++ List.drop sep.length l = l := by
  have hp : sep <+: l := by
    exact List.isPrefixOf_iff_prefix.mp h
  exact List.prefix_iff_eq_append.mp hp

theorem splitFuel_reconstruct (sep : List Char) (fuel : Nat) (l : List Char)
    (hsep : sep ≠ []) (h : l.length ≤ fuel) :
    List.intercalate sep (splitFuel sep fuel l) = l := by
  induction fuel generalizing l with
  | zero =>
    have : l = [] := by cases l <;> simp_all
    subst this
    simp [splitFuel, List.intercalate]
  | succ n ih =>
    cases l with
    | nil => simp [splitFuel, List.intercalate]
    | cons c rest =>
      have hrest : rest.length ≤ n := by simpa using h
      rw [splitFuel]
      by_cases hpre : sep.isPrefixOf (c :: rest)
      · rw [if_pos ⟨hsep, hpre⟩]
        have hne := splitFuel_ne_nil sep n (List.drop (sep.length - 1) rest)
        rw [intercalate_cons_of_ne_nil _ _ _ hne]
        have hdl : (List.drop (sep.length - 1) rest).length ≤ n := by
          have := List.length_drop (sep.length - 1) rest
          omega
        rw [ih _ hdl]
        have hcons : List.drop (sep.length - 1) rest = List.drop sep.length (c :: rest) := by
          obtain ⟨m, hm⟩ : ∃ m, sep.length = m + 1 := by
            cases hl : sep.length with
            | zero => exact absurd (List.length_eq_zero.mp hl) hsep
            | succ m => exact ⟨m, rfl⟩
          rw [hm]
          simp
        rw [List.nil_append, hcons]
        exact isPrefixOf_drop_eq hpre
      · rw [if_neg (by simp [hpre])]
        cases hs : splitFuel sep n rest with
        | nil => exact absurd hs (splitFuel_ne_nil _ _ _)
        | cons seg segs =>
          rw [intercalate_cons_head]
          have := ih rest hrest
          rw [hs] at this
          rw [this]

theorem splitFuel_of_not_contains (sep : List Char) (fuel : Nat) (l : List Char)
    (h : l.length ≤ fuel) (hnc : containsCore sep l = false) :
    splitFuel sep fuel l = [l] := by
  induction fuel generalizing l with
  | zero =>
    have : l = [] := by cases l <;> simp_all
    subst this
    simp [splitFuel]
  | succ n ih =>
    cases l with
    | nil => simp [splitFuel]
    | cons c rest =>
      have hrest : rest.length ≤ n := by simpa using h
      rw [containsCore] at hnc
      have hpre : sep.isPrefixOf (c :: rest) = false := by
        cases hx : sep.isPrefixOf (c :: rest) <;> simp_all
      have hrc : containsCore sep rest = false := by
        cases hx : containsCore sep rest <;> simp_all
      rw [splitFuel, if_neg (by simp [hpre])]
      rw [ih rest hrest hrc]

theorem splitFuel_len_two_of_contains (sep : List Char) (fuel : Nat) (l : List Char)
    (hsep : sep ≠ []) (h : l.length ≤ fuel) (hc : containsCore sep l = true) :
    2 ≤ (splitFuel sep fuel l).length := by
  induction fuel generalizing l with
  | zero =>
    have hl : l = [] := by cases l <;> simp_all
    subst hl
    rw [containsCore] at hc
    cases sep with
    | nil => exact absurd rfl hsep
    | cons a t => simp [List.isPrefixOf] at hc
  | succ n ih =>
    cases l with
    | nil =>
      rw [containsCore] at hc
      cases sep with
      | nil => exact absurd rfl hsep
      | cons a t => simp [List.isPrefixOf] at hc
    | cons c rest =>
      have hrest : rest.length ≤ n := by simpa using h
      rw [splitFuel]
      by_cases hpre : sep.isPrefixOf (c :: rest)
      · rw [if_pos ⟨hsep, hpre⟩]
        have := splitFuel_ne_nil sep n (List.drop (sep.length - 1) rest)
        cases hx : splitFuel sep n (List.drop (sep.length - 1) rest) with
        | nil => exact absurd hx this
        | cons a t => simp
      · rw [if_neg (by simp [hpre])]
        rw [containsCore] at hc
        have hrc : containsCore sep rest = true := by
          cases hx : containsCore sep rest <;> simp_all
        have := ih rest hrest hrc
        cases hs : splitFuel sep n rest with
        | nil => exact absurd hs (splitFuel_ne_nil _ _ _)
        | cons seg segs =>
          rw [hs] at this
          simp at this ⊢
          omega

theorem containsCore_nil_of_ne (sep : List Char) (hsep : sep ≠ []) :
    containsCore sep [] = false := by
  rw [containsCore]
  cases sep with
  | nil => exact absurd rfl hsep
  | cons a t => simp [List.isPrefixOf]

theorem splitFuel_getLast_not_contains (sep : List Char) (fuel : Nat) (l : List Char)
    (hsep : sep ≠ []) (h : l.length ≤ fuel) :
    containsCore sep (((splitFuel sep fuel l).getLast?).getD []) = false := by
  induction fuel generalizing l with
  | zero =>
    have : l = [] := by cases l <;> simp_all
    subst this
    simp [splitFuel, containsCore_nil_of_ne sep hsep]
  | succ n ih =>
    cases l with
    | nil => simp [splitFuel, containsCore_nil_of_ne sep hsep]
    | cons c rest =>
      have hrest : rest.length ≤ n := by simpa using h
      rw [splitFuel]
      by_cases hpre : sep.isPrefixOf (c :: rest)
      · rw [if_pos ⟨hsep, hpre⟩]
        have hdl : (List.drop (sep.length - 1) rest).length ≤ n := by
          have := List.length_drop (sep.length - 1) rest
          omega
        have hih := ih _ hdl
        cases hx : splitFuel sep n (List.drop (sep.length - 1) rest) with
        | nil => exact absurd hx (splitFuel_ne_nil _ _ _)
        | cons a t =>
          rw [hx] at hih
          rw [List.getLast?_cons_cons]
          exact hih
      · rw [if_neg (by simp [hpre])]
        cases hs : splitFuel sep n rest with
        | nil => exact absurd hs (splitFuel_ne_nil _ _ _)
        | cons seg segs =>
          have hih := ih rest hrest
          rw [hs] at hih
          cases segs with
          | nil =>
            have hseg : seg = rest := by
              have hr := splitFuel_reconstruct sep n rest hsep hrest
              rw [hs] at hr
              simpa [List.intercalate] using hr
            simp only [List.getLast?_singleton, Option.getD_some] at hih ⊢
            rw [containsCore]
            subst hseg
            simp [hpre, hih]
          | cons s2 t =>
            rw [List.getLast?_cons_cons]
            rw [List.getLast?_cons_cons] at hih
            exact hih

theorem citizenshipRows_SaveLanguageStat (db : StatsDB) (stat : SchoolLanguageStat)
    (now : Nat) : (SaveLanguageStat db stat now).citizenshipRows = db.citizenshipRows := rfl

theorem citizenshipRows_SaveResidenceStats (db : StatsDB)
    (stats : List SchoolResidenceStat) (now : Nat) :
    (SaveResidenceStats db stats now).citizenshipRows = db.citizenshipRows := by
  cases stats <;> rfl

theorem citizenshipRows_SaveAbsenceStat (db : StatsDB) (stat : SchoolAbsenceStat)
    (now : Nat) : (SaveAbsenceStat db stat now).citizenshipRows = db.citizenshipRows := rfl

theorem residenceRows_SaveCitizenshipStats (db : StatsDB)
    (stats : List SchoolCitizenshipStat) (now : Nat) :
    (SaveCitizenshipStats db stats now).residenceRows = db.residenceRows := by
  cases stats <;> rfl

theorem residenceRows_SaveLanguageStat (db : StatsDB) (stat : SchoolLanguageStat)
    (now : Nat) : (SaveLanguageStat db stat now).residenceRows = db.residenceRows := rfl

theorem residenceRows_SaveAbsenceStat (db : StatsDB) (stat : SchoolAbsenceStat)
    (now : Nat) : (SaveAbsenceStat db stat now).residenceRows = db.residenceRows := rfl


theorem citizenshipRows_saveLanguageStep (db : StatsDB) (detail : SchoolDetailData)
    (now : Nat) :
    (saveLanguageStep db detail now).citizenshipRows = db.citizenshipRows := by
  unfold saveLanguageStep
  cases detail.languageTable with
  | none => rfl
  | some t =>
    simp only
    cases NormalizeLanguageTable detail.schoolNumber (some t) detail.scrapedAt with
    | none => rfl
    | some stat => exact citizenshipRows_SaveLanguageStat _ _ _

theorem citizenshipRows_saveResidenceStep (db : StatsDB) (detail : SchoolDetailData)
    (now : Nat) :
    (saveResidenceStep db detail now).citizenshipRows = db.citizenshipRows := by
  unfold saveResidenceStep
  cases detail.residenceTable with
  | none => rfl
  | some t =>
    simp only
    split
    · exact citizenshipRows_SaveResidenceStats _ _ _
    · rfl

theorem citizenshipRows_saveAbsenceStep (db : StatsDB) (detail : SchoolDetailData)
    (now : Nat) :
    (saveAbsenceStep db detail now).citizenshipRows = db.citizenshipRows := by
  unfold saveAbsenceStep
  cases detail.absenceTable with
  | none => rfl
  | some t =>
    simp only
    cases NormalizeAbsenceTable detail.schoolNumber (some t) detail.scrapedAt with
    | none => rfl
    | some stat => exact citizenshipRows_SaveAbsenceStat _ _ _

theorem residenceRows_saveCitizenshipStep (db : StatsDB) (detail : SchoolDetailData)
    (now : Nat) :
    (saveCitizenshipStep db detail now).residenceRows = db.residenceRows := by
  unfold saveCitizenshipStep
  cases detail.citizenshipTable with
  | none => rfl
  | some t =>
    simp only
    split
    · exact residenceRows_SaveCitizenshipStats _ _ _
    · rfl

theorem residenceRows_saveLanguageStep (db : StatsDB) (detail : SchoolDetailData)
    (now : Nat) :
    (saveLanguageStep db detail now).residenceRows = db.residenceRows := by
  unfold saveLanguageStep
  cases detail.languageTable with
  | none => rfl
  | some t =>
    simp only
    cases NormalizeLanguageTable detail.schoolNumber (some t) detail.scrapedAt with
    | none => rfl
    | some stat => exact residenceRows_SaveLanguageStat _ _ _

theorem residenceRows_saveAbsenceStep (db : StatsDB) (detail : SchoolDetailData)
    (now : Nat) :
    (saveAbsenceStep db detail now).residenceRows = db.residenceRows := by
  unfold saveAbsenceStep
  cases detail.absenceTable with
  | none => rfl
  | some t =>
    simp only
    cases NormalizeAbsenceTable detail.schoolNumber (some t) detail.scrapedAt with
    | none => rfl
    | some stat => exact residenceRows_SaveAbsenceStat _ _ _

theorem saveCitizenshipStep_of_empty (db : StatsDB) (detail : SchoolDetailData)
    (now : Nat)
    (hz : NormalizeCitizenshipTable detail.schoolNumber detail.citizenshipTable
      detail.scrapedAt = []) :
    saveCitizenshipStep db detail now = db := by
  unfold saveCitizenshipStep
  cases h : detail.citizenshipTable with
  | none => rfl
  | some t =>
    rw [h] at hz
    simp [hz]

theorem saveResidenceStep_of_empty (db : StatsDB) (detail : SchoolDetailData)
    (now : Nat)
    (hz : NormalizeResidenceTable detail.schoolNumber detail.residenceTable
      detail.scrapedAt = []) :
    saveResidenceStep db detail now = db := by
  unfold saveResidenceStep
  cases h : detail.residenceTable with
  | none => rfl
  | some t =>
    rw [h] at hz
    simp [hz]

theorem filter_key_ne_eq {α : Type} (key : α → String) (sn : String) (l : List α) :
    (l.filter (fun r => key r ≠ sn)).filter (fun r => key r = sn) = [] := by
  induction l with
  | nil => rfl
  | cons r t ih =>
    by_cases h : key r = sn
    · simp [List.filter, h, ih]
    · simp [List.filter, h, ih]

theorem filter_key_comm {α : Type} (key : α → String) (sn y : String) (hy : y ≠ sn)
    (l : List α) :
    (l.filter (fun r => key r ≠ sn)).filter (fun r => key r = y) =
      l.filter (fun r => key r = y) := by
  rw [List.filter_filter]
  apply List.filter_congr
  intro a _
  by_cases h : key a = y
  · have hne : key a ≠ sn := by rw [h]; exact hy
    simp [h, hne, hy]
  · simp [h]

theorem filter_key_all_eq {α : Type} (key : α → String) (sn : String) (l : List α)
    (h : ∀ x ∈ l, key x = sn) : l.filter (fun r => key r = sn) = l := by
  induction l with
  | nil => rfl
  | cons r t ih =>
    have hr := h r (by simp)
    have ht : ∀ x ∈ t, key x = sn := fun x hx => h x (by simp [hx])
    simp [List.filter, hr, ih ht]

theorem filter_key_nil_of_all_ne {α : Type} (key : α → String) (sn y : String)
    (hy : y ≠ sn) (l : List α) (h : ∀ x ∈ l, key x = sn) :
    l.filter (fun r => key r = y) = [] := by
  induction l with
  | nil => rfl
  | cons r t ih =>
    have hr := h r (by simp)
    have ht : ∀ x ∈ t, key x = sn := fun x hx => h x (by simp [hx])
    have : ¬ (key r = y) := by rw [hr]; exact fun hh => hy hh.symm
    simp [List.filter, this, ih ht]

theorem trim_core_idem (p : Char → Bool) (l : List Char) :
    List.rdropWhile p (List.dropWhile p (List.rdropWhile p (List.dropWhile p l))) =
      List.rdropWhile p (List.dropWhile p l) := by
  have hdwu : List.dropWhile p (List.dropWhile p l) = List.dropWhile p l :=
    List.dropWhile_idempotent p l
  have hw : List.dropWhile p (List.rdropWhile p (List.dropWhile p l)) =
      List.rdropWhile p (List.dropWhile p l) := by
    cases hwc : List.rdropWhile p (List.dropWhile p l) with
    | nil => simp
    | cons a t =>
      obtain ⟨r2, hr2⟩ := (List.rdropWhile_prefix p (List.dropWhile p l))
      rw [hwc] at hr2
      have hua : List.dropWhile p l = a :: (t ++ r2) := by rw [← hr2]; simp
      have hpa : p a = false := by
        by_contra hpa'
        have hpa : p a = true := by simpa using hpa'
        rw [hua, List.dropWhile_cons, if_pos hpa] at hdwu
        have hlen := congrArg List.length hdwu
        have hle := (List.dropWhile_suffix (l := t ++ r2) p).length_le
        simp only [List.length_cons] at hlen
        omega
      simp [List.dropWhile_cons, hpa]
  rw [hw, List.rdropWhile_idempotent]

theorem goTrimSpace_idem (s : String) : goTrimSpace (goTrimSpace s) = goTrimSpace s := by
  show String.mk (List.rdropWhile isGoSpace (List.dropWhile isGoSpace
      (List.rdropWhile isGoSpace (List.dropWhile isGoSpace s.data)))) =
    String.mk (List.rdropWhile isGoSpace (List.dropWhile isGoSpace s.data))
  exact congrArg String.mk (trim_core_idem isGoSpace s.data)

theorem decChars_enc (cs : List Char) (rest : List Nat) :
    decChars cs.length (cs.map Char.toNat ++ rest) = some (cs, rest) := by
  induction cs with
  | nil => rfl
  | cons c t ih =>
    simp only [List.length_cons, List.map_cons, List.cons_append, decChars, List.append_eq]
    simp [ih, Char.ofNat_toNat]

theorem decStr_enc (s : String) (rest : List Nat) :
    decStr (encStr s ++ rest) = some (s, rest) := by
  simp only [encStr, decStr, List.cons_append, decNat, List.append_eq]
  rw [decChars_enc]

theorem decBool_enc (b : Bool) (rest : List Nat) :
    decBool (encBool b ++ rest) = some (b, rest) := by
  cases b <;> rfl

theorem decCount_enc {α : Type} (dec : List Nat → Option (α × List Nat))
    (enc : α → List Nat) (hcomp : ∀ a rest, dec (enc a ++ rest) = some (a, rest))
    (l : List α) (rest : List Nat) :
    decCount dec l.length ((l.map enc).flatten ++ rest) = some (l, rest) := by
  induction l with
  | nil => rfl
  | cons a t ih =>
    simp only [List.length_cons, List.map_cons, List.flatten_cons, List.append_assoc,
      decCount, List.append_eq]
    simp [hcomp, ih]

theorem decListStr_enc (l : List String) (rest : List Nat) :
    decListStr (encListStr l ++ rest) = some (l, rest) := by
  simp only [encListStr, decListStr, List.cons_append, decNat]
  exact decCount_enc decStr encStr decStr_enc l rest

theorem decRows_enc (l : List (List String)) (rest : List Nat) :
    decRows (encRows l ++ rest) = some (l, rest) := by
  simp only [encRows, decRows, List.cons_append, decNat]
  exact decCount_enc decListStr encListStr decListStr_enc l rest

theorem decPair_enc (p : String × String) (rest : List Nat) :
    decPair (encPair p ++ rest) = some (p, rest) := by
  obtain ⟨a, b⟩ := p
  simp only [encPair, decPair, List.append_assoc]
  simp [decStr_enc]

theorem decPairs_enc (l : List (String × String)) (rest : List Nat) :
    decPairs (encPairs l ++ rest) = some (l, rest) := by
  simp only [encPairs, decPairs, List.cons_append, decNat]
  exact decCount_enc decPair encPair decPair_enc l rest

theorem decTable_enc (t : StatisticTable) (rest : List Nat) :
    decTable (encTable t ++ rest) = some (t, rest) := by
  simp only [encTable, decTable, List.append_assoc]
  simp [decListStr_enc, decRows_enc, decPairs_enc]

theorem decOptTable_enc (t : Option StatisticTable) (rest : List Nat) :
    decOptTable (encOptTable t ++ rest) = some (t, rest) := by
  cases t with
  | none => rfl
  | some t =>
    simp only [encOptTable, decOptTable, List.cons_append]
    simp [decTable_enc]

theorem decodeDetail_enc (d : SchoolDetailData) :
    decodeDetail (encodeDetail d) = some d := by
  simp only [encodeDetail, decodeDetail, List.append_assoc]
  simp only [decStr_enc, decBool_enc, decOptTable_enc]
  simp [decNat, encNat]

theorem extractText_mkTd (s : String) : extractText (mkTd s) = goTrimSpace s := by
  show goTrimSpace (extractTextList (.cons (.text s) .nil)) = goTrimSpace s
  show goTrimSpace (goTrimSpace s ++ "") = goTrimSpace s
  rw [String.append_empty]
  exact goTrimSpace_idem s

theorem rowCells_mkTr (cells : List String) :
    rowCells (toHNodeList (cells.map mkTd)) = cells.map goTrimSpace := by
  induction cells with
  | nil => rfl
  | cons c t ih =>
    show rowCells (.cons (mkTd c) (toHNodeList (t.map mkTd))) = _
    rw [show mkTd c = HNode.elem "td" (toHNodeList [HNode.text c]) from rfl]
    rw [rowCells]
    rw [if_pos (by simp)]
    rw [← show mkTd c = HNode.elem "td" (toHNodeList [HNode.text c]) from rfl]
    rw [extractText_mkTd, ih]
    rfl

theorem parseNode_mkTd (s : String) (b : Bool) (st : TState) :
    parseNode (mkTd s) b st = st := rfl

theorem parseNodeList_tds (cells : List String) (b : Bool) (st : TState) :
    parseNodeList (toHNodeList (cells.map mkTd)) b st = st := by
  induction cells generalizing st with
  | nil => rfl
  | cons c t ih =>
    show parseNodeList (.cons (mkTd c) (toHNodeList (t.map mkTd))) b st = st
    rw [parseNodeList, parseNode_mkTd]
    exact ih st

theorem parseNode_mkTr (cells : List String) (b : Bool) (st : TState) :
    parseNode (mkTr cells) b st = trStep (cells.map goTrimSpace) b st := by
  show parseNode (.elem "tr" (toHNodeList (cells.map mkTd))) b st = _
  rw [parseNode]
  rw [if_neg (by decide), if_neg (by decide)]
  rw [if_pos rfl]
  rw [rowCells_mkTr]
  exact parseNodeList_tds cells b _

theorem parseList_rows_false (rs : List (List String)) (st : TState)
    (hf : st.isFirstRow = false) (hne : ∀ r ∈ rs, r ≠ []) :
    parseNodeList (toHNodeList (rs.map mkTr)) false st =
      ⟨st.headers, st.rows ++ rs.map (List.map goTrimSpace), false⟩ := by
  induction rs generalizing st with
  | nil =>
    obtain ⟨h, r, f⟩ := st
    simp only at hf
    subst hf
    show (⟨h, r, false⟩ : TState) = ⟨h, r ++ [].map (List.map goTrimSpace), false⟩
    simp
  | cons row t ih =>
    show parseNodeList (.cons (mkTr row) (toHNodeList (t.map mkTr))) false st = _
    rw [parseNodeList, parseNode_mkTr]
    have hrow : row.map goTrimSpace ≠ [] := by
      have := hne row (by simp)
      simpa using this
    rw [trStep, if_neg (by simpa using hrow)]
    rw [if_neg (by simp [hf])]
    rw [ih ⟨st.headers, st.rows ++ [row.map goTrimSpace], st.isFirstRow⟩ hf
      (fun r hr => hne r (by simp [hr]))]
    simp [hf]

theorem parseList_rows_first (rs : List (List String)) (st : TState)
    (hf : st.isFirstRow = true) (hne : ∀ r ∈ rs, r ≠ []) (hrs : rs ≠ []) :
    parseNodeList (toHNodeList (rs.map mkTr)) false st =
      ⟨(rs.headD []).map goTrimSpace, st.rows ++ rs.tail.map (List.map goTrimSpace),
        false⟩ := by
  cases rs with
  | nil => exact absurd rfl hrs
  | cons row t =>
    show parseNodeList (.cons (mkTr row) (toHNodeList (t.map mkTr))) false st = _
    rw [parseNodeList, parseNode_mkTr]
    have hrow : row.map goTrimSpace ≠ [] := by
      have := hne row (by simp)
      simpa using this
    rw [trStep, if_neg (by simpa using hrow)]
    rw [if_pos (by simp [hf])]
    rw [parseList_rows_false t ⟨row.map goTrimSpace, st.rows, false⟩ rfl
      (fun r hr => hne r (by simp [hr]))]
    rfl

theorem parseList_rows_thead (rs : List (List String)) (st : TState)
    (hne : ∀ r ∈ rs, r ≠ []) (hrs : rs ≠ []) :
    parseNodeList (toHNodeList (rs.map mkTr)) true st =
      ⟨((rs.getLast?).getD []).map goTrimSpace, st.rows, false⟩ := by
  induction rs generalizing st with
  | nil => exact absurd rfl hrs
  | cons row t ih =>
    show parseNodeList (.cons (mkTr row) (toHNodeList (t.map mkTr))) true st = _
    rw [parseNodeList, parseNode_mkTr]
    have hrow : row.map goTrimSpace ≠ [] := by
      have := hne row (by simp)
      simpa using this
    rw [trStep, if_neg (by simpa using hrow)]
    rw [if_pos (by simp)]
    cases t with
    | nil =>
      show (⟨row.map goTrimSpace, st.rows, false⟩ : TState) = _
      simp
    | cons r2 t2 =>
      rw [ih ⟨row.map goTrimSpace, st.rows, false⟩
        (fun r hr => hne r (by simp [hr])) (by simp)]
      rw [List.getLast?_cons_cons]

/-! ### Claim theorems -/

/-- C1 (amended): for the delete-then-insert statistic categories
(citizenship and residence), calling the replace operation with a NON-EMPTY
list of records all carrying source id X first deletes every prior row of X
and then inserts exactly the new records, so afterwards the rows of X are
exactly the new set and the rows of every other source id are unchanged.
The restriction to non-empty new sets is forced by the source's early return
on an empty list. -/
theorem C1_replace_exact_for_nonempty (db : StatsDB) (now : Nat) (sn : String) :
    (∀ stats : List SchoolCitizenshipStat, stats ≠ [] →
      (∀ s ∈ stats, s.schoolNumber = sn) →
      ((SaveCitizenshipStats db stats now).citizenshipRows.filter
          (fun r => r.stat.schoolNumber = sn) =
        stats.map (fun s => ⟨s, now⟩)) ∧
      (∀ y, y ≠ sn →
        (SaveCitizenshipStats db stats now).citizenshipRows.filter
            (fun r => r.stat.schoolNumber = y) =
          db.citizenshipRows.filter (fun r => r.stat.schoolNumber = y))) ∧
    (∀ stats : List SchoolResidenceStat, stats ≠ [] →
      (∀ s ∈ stats, s.schoolNumber = sn) →
      ((SaveResidenceStats db stats now).residenceRows.filter
          (fun r => r.stat.schoolNumber = sn) =
        stats.map (fun s => ⟨s, now⟩)) ∧
      (∀ y, y ≠ sn →
        (SaveResidenceStats db stats now).residenceRows.filter
            (fun r => r.stat.schoolNumber = y) =
          db.residenceRows.filter (fun r => r.stat.schoolNumber = y))) := by
  constructor
  · intro stats hne hall
    cases stats with
    | nil => exact absurd rfl hne
    | cons s0 rest =>
      have hs0 : s0.schoolNumber = sn := hall s0 (by simp)
      have hmap : ∀ x ∈ (s0 :: rest).map (fun s => (⟨s, now⟩ : CitizenshipRow)),
          x.stat.schoolNumber = sn := by
        intro x hx
        obtain ⟨s, hs, rfl⟩ := List.mem_map.mp hx
        exact hall s hs
      constructor
      · show ((db.citizenshipRows.filter
            (fun r : CitizenshipRow => r.stat.schoolNumber ≠ s0.schoolNumber) ++
          (s0 :: rest).map (fun s => (⟨s, now⟩ : CitizenshipRow))).filter
            (fun r : CitizenshipRow => r.stat.schoolNumber = sn)) = _
        rw [List.filter_append, hs0]
        rw [filter_key_ne_eq (fun r : CitizenshipRow => r.stat.schoolNumber) sn
          db.citizenshipRows]
        rw [filter_key_all_eq (fun r : CitizenshipRow => r.stat.schoolNumber) sn _ hmap]
        simp
      · intro y hy
        show ((db.citizenshipRows.filter
            (fun r : CitizenshipRow => r.stat.schoolNumber ≠ s0.schoolNumber) ++
          (s0 :: rest).map (fun s => (⟨s, now⟩ : CitizenshipRow))).filter
            (fun r : CitizenshipRow => r.stat.schoolNumber = y)) = _
        rw [List.filter_append, hs0]
        rw [filter_key_comm (fun r : CitizenshipRow => r.stat.schoolNumber) sn y hy
          db.citizenshipRows]
        rw [filter_key_nil_of_all_ne (fun r : CitizenshipRow => r.stat.schoolNumber)
          sn y hy _ hmap]
        simp
  · intro stats hne hall
    cases stats with
    | nil => exact absurd rfl hne
    | cons s0 rest =>
      have hs0 : s0.schoolNumber = sn := hall s0 (by simp)
      have hmap : ∀ x ∈ (s0 :: rest).map (fun s => (⟨s, now⟩ : ResidenceRow)),
          x.stat.schoolNumber = sn := by
        intro x hx
        obtain ⟨s, hs, rfl⟩ := List.mem_map.mp hx
        exact hall s hs
      constructor
      · show ((db.residenceRows.filter
            (fun r : ResidenceRow => r.stat.schoolNumber ≠ s0.schoolNumber) ++
          (s0 :: rest).map (fun s => (⟨s, now⟩ : ResidenceRow))).filter
            (fun r : ResidenceRow => r.stat.schoolNumber = sn)) = _
        rw [List.filter_append, hs0]
        rw [filter_key_ne_eq (fun r : ResidenceRow => r.stat.schoolNumber) sn
          db.residenceRows]
        rw [filter_key_all_eq (fun r : ResidenceRow => r.stat.schoolNumber) sn _ hmap]
        simp
      · intro y hy
        show ((db.residenceRows.filter
            (fun r : ResidenceRow => r.stat.schoolNumber ≠ s0.schoolNumber) ++
          (s0 :: rest).map (fun s => (⟨s, now⟩ : ResidenceRow))).filter
            (fun r : ResidenceRow => r.stat.schoolNumber = y)) = _
        rw [List.filter_append, hs0]
        rw [filter_key_comm (fun r : ResidenceRow => r.stat.schoolNumber) sn y hy
          db.residenceRows]
        rw [filter_key_nil_of_all_ne (fun r : ResidenceRow => r.stat.schoolNumber)
          sn y hy _ hmap]
        simp

/-- C1 counterexample: with a prior citizenship row for source id "X" in the
store, calling the replace operation with the empty new set for "X" leaves
the old row in place, so the rows present for "X" afterwards are NOT exactly
the new (empty) set — the delete is skipped for empty input. -/
theorem C1_counterexample :
    (SaveCitizenshipStats ⟨[⟨⟨"X", "Afrika", 1, 2, 3, 0⟩, 0⟩], [], [], []⟩
        ([] : List SchoolCitizenshipStat) 7).citizenshipRows.filter
      (fun r => r.stat.schoolNumber = "X") =
      [⟨⟨"X", "Afrika", 1, 2, 3, 0⟩, 0⟩] ∧
    ¬ ((SaveCitizenshipStats ⟨[⟨⟨"X", "Afrika", 1, 2, 3, 0⟩, 0⟩], [], [], []⟩
        ([] : List SchoolCitizenshipStat) 7).citizenshipRows.filter
      (fun r => r.stat.schoolNumber = "X") =
      ([] : List SchoolCitizenshipStat).map (fun s => ⟨s, 7⟩)) := by
  constructor
  · decide
  · decide

/-- C1 witness: the amended replacement property applied at a concrete store
holding rows for "X" and "Y", replacing "X" with one new record. -/
theorem C1_replace_exact_for_nonempty_witness :
    ((SaveCitizenshipStats
        ⟨[⟨⟨"X", "Alt", 1, 1, 2, 0⟩, 0⟩, ⟨⟨"Y", "Alt", 5, 5, 10, 0⟩, 0⟩], [], [], []⟩
        [⟨"X", "Neu", 1, 2, 3, 1⟩] 7).citizenshipRows.filter
      (fun r => r.stat.schoolNumber = "X") =
      [⟨⟨"X", "Neu", 1, 2, 3, 1⟩, 7⟩]) ∧
    ((SaveCitizenshipStats
        ⟨[⟨⟨"X", "Alt", 1, 1, 2, 0⟩, 0⟩, ⟨⟨"Y", "Alt", 5, 5, 10, 0⟩, 0⟩], [], [], []⟩
        [⟨"X", "Neu", 1, 2, 3, 1⟩] 7).citizenshipRows.filter
      (fun r => r.stat.schoolNumber = "Y") =
      [⟨⟨"Y", "Alt", 5, 5, 10, 0⟩, 0⟩]) ∧
    ((SaveResidenceStats
        ⟨[], [], [⟨⟨"X", "Mitte", 9, 0⟩, 0⟩], []⟩
        [⟨"X", "Pankow", 4, 1⟩] 7).residenceRows.filter
      (fun r => r.stat.schoolNumber = "X") =
      [⟨⟨"X", "Pankow", 4, 1⟩, 7⟩]) := by
  have h := C1_replace_exact_for_nonempty
    ⟨[⟨⟨"X", "Alt", 1, 1, 2, 0⟩, 0⟩, ⟨⟨"Y", "Alt", 5, 5, 10, 0⟩, 0⟩], [], [], []⟩ 7 "X"
  have h2 := C1_replace_exact_for_nonempty ⟨[], [], [⟨⟨"X", "Mitte", 9, 0⟩, 0⟩], []⟩ 7 "X"
  have hc := h.1 [⟨"X", "Neu", 1, 2, 3, 1⟩] (by decide) (by decide)
  have hr := (h2.2 [⟨"X", "Pankow", 4, 1⟩] (by decide) (by decide)).1
  refine ⟨hc.1, ?_, hr⟩
  have hy := hc.2 "Y" (by decide)
  rw [hy]
  decide

/-- C9: calling the citizenship or residence replace operation with an empty
record list is a complete no-op on the store (the delete of prior rows is
skipped), and consequently the rows previously stored for a source id
survive whenever a harvest normalizes to zero rows for that category; in the
error-free database model the operation trivially reports success. -/
theorem C9_empty_save_is_noop :
    (∀ (db : StatsDB) (now : Nat), SaveCitizenshipStats db [] now = db) ∧
    (∀ (db : StatsDB) (now : Nat), SaveResidenceStats db [] now = db) ∧
    (∀ (db : StatsDB) (detail : SchoolDetailData) (now : Nat),
      NormalizeCitizenshipTable detail.schoolNumber detail.citizenshipTable
        detail.scrapedAt = [] →
      (saveNormalizedStatistics db detail now).citizenshipRows = db.citizenshipRows) ∧
    (∀ (db : StatsDB) (detail : SchoolDetailData) (now : Nat),
      NormalizeResidenceTable detail.schoolNumber detail.residenceTable
        detail.scrapedAt = [] →
      (saveNormalizedStatistics db detail now).residenceRows = db.residenceRows) := by
  refine ⟨fun db now => rfl, fun db now => rfl, ?_, ?_⟩
  · intro db detail now hz
    unfold saveNormalizedStatistics
    by_cases hsn : detail.schoolNumber = ""
    · simp [hsn]
    · rw [if_neg hsn]
      rw [citizenshipRows_saveAbsenceStep, citizenshipRows_saveResidenceStep,
        citizenshipRows_saveLanguageStep, saveCitizenshipStep_of_empty db detail now hz]
  · intro db detail now hz
    unfold saveNormalizedStatistics
    by_cases hsn : detail.schoolNumber = ""
    · simp [hsn]
    · rw [if_neg hsn]
      rw [residenceRows_saveAbsenceStep,
        saveResidenceStep_of_empty _ detail now hz,
        residenceRows_saveLanguageStep, residenceRows_saveCitizenshipStep]

/-- C9 witness: the no-op behavior at a concrete store with one prior row
for "X" and a detail record whose tables normalize to zero rows. -/
theorem C9_empty_save_is_noop_witness :
    SaveCitizenshipStats ⟨[⟨⟨"X", "Afrika", 1, 2, 3, 0⟩, 0⟩], [], [], []⟩ [] 7 =
      ⟨[⟨⟨"X", "Afrika", 1, 2, 3, 0⟩, 0⟩], [], [], []⟩ ∧
    SaveResidenceStats ⟨[], [], [⟨⟨"X", "Mitte", 9, 0⟩, 0⟩], []⟩ [] 7 =
      ⟨[], [], [⟨⟨"X", "Mitte", 9, 0⟩, 0⟩], []⟩ ∧
    (saveNormalizedStatistics ⟨[⟨⟨"X", "Afrika", 1, 2, 3, 0⟩, 0⟩], [], [], []⟩
        (demoDetail "X") 7).citizenshipRows = [⟨⟨"X", "Afrika", 1, 2, 3, 0⟩, 0⟩] ∧
    (saveNormalizedStatistics ⟨[], [], [⟨⟨"X", "Mitte", 9, 0⟩, 0⟩], []⟩
        (demoDetail "X") 7).residenceRows = [⟨⟨"X", "Mitte", 9, 0⟩, 0⟩] := by
  refine ⟨C9_empty_save_is_noop.1 _ 7, C9_empty_save_is_noop.2.1 _ 7, ?_, ?_⟩
  · exact C9_empty_save_is_noop.2.2.1 _ (demoDetail "X") 7 (by decide)
  · exact C9_empty_save_is_noop.2.2.2 _ (demoDetail "X") 7 (by decide)

/-- C7: language normalization returns absent exactly when the table is
absent, has fewer than 2 rows, or its last row has fewer than 5 cells;
otherwise it returns one record whose five fields are parsed from the LAST
row's first five cells (integers and a percentage float), stamped with the
given timestamp. -/
theorem C7_normalize_language (sn : String) (ts : Nat) :
    NormalizeLanguageTable sn none ts = none ∧
    (∀ t : StatisticTable, t.rows.length < 2 →
      NormalizeLanguageTable sn (some t) ts = none) ∧
    (∀ t : StatisticTable, 2 ≤ t.rows.length →
      ((t.rows.getLast?).getD []).length < 5 →
      NormalizeLanguageTable sn (some t) ts = none) ∧
    (∀ t : StatisticTable, 2 ≤ t.rows.length →
      5 ≤ ((t.rows.getLast?).getD []).length →
      NormalizeLanguageTable sn (some t) ts = some
        { schoolNumber := sn
          totalStudents := parseInt (((t.rows.getLast?).getD []).getD 0 "")
          ndhFemaleStudents := parseInt (((t.rows.getLast?).getD []).getD 1 "")
          ndhMaleStudents := parseInt (((t.rows.getLast?).getD []).getD 2 "")
          ndhTotal := parseInt (((t.rows.getLast?).getD []).getD 3 "")
          ndhPercentage := parseFloat (((t.rows.getLast?).getD []).getD 4 "")
          scrapedAt := ts }) := by
  refine ⟨rfl, ?_, ?_, ?_⟩
  · intro t h
    simp [NormalizeLanguageTable, h]
  · intro t h2 h5
    rw [NormalizeLanguageTable]
    rw [if_neg (by omega)]
    rw [if_pos h5]
  · intro t h2 h5
    rw [NormalizeLanguageTable]
    rw [if_neg (by omega)]
    rw [if_neg (by omega)]

/-- C7 witness: the present case at a concrete two-row table and the absent
cases at concrete degenerate tables. -/
theorem C7_normalize_language_witness :
    NormalizeLanguageTable "01" (some ⟨[], [["h", "h", "h", "h", "h"],
        ["900", "10", "20", "30", "3,3 %"]], []⟩) 7 =
      some ⟨"01", 900, 10, 20, 30, ⟨33, 1⟩, 7⟩ ∧
    NormalizeLanguageTable "01" (some ⟨[], [["only", "one", "row", "x", "y"]], []⟩) 7 =
      none ∧
    NormalizeLanguageTable "01" (some ⟨[], [["a", "b", "c", "d", "e"], ["short"]], []⟩)
      7 = none := by
  refine ⟨?_, ?_, ?_⟩
  · have h := (C7_normalize_language "01" 7).2.2.2
      ⟨[], [["h", "h", "h", "h", "h"], ["900", "10", "20", "30", "3,3 %"]], []⟩
      (by decide) (by decide)
    rw [h]
    decide
  · exact (C7_normalize_language "01" 7).2.1 _ (by decide)
  · exact (C7_normalize_language "01" 7).2.2.1 _ (by decide) (by decide)

theorem absRowStep_short (st : SchoolAbsenceStat) (row : List String)
    (h : row.length < 3) : absRowStep st row = st := by
  rw [absRowStep, if_pos h]

theorem absFold_filter (rows : List (List String)) (st : SchoolAbsenceStat) :
    rows.foldl absRowStep st =
      (rows.filter (fun row => 3 ≤ row.length)).foldl absRowStep st := by
  induction rows generalizing st with
  | nil => rfl
  | cons row t ih =>
    by_cases h : 3 ≤ row.length
    · rw [List.foldl_cons, List.filter_cons, if_pos (by simpa using h),
        List.foldl_cons]
      exact ih (absRowStep st row)
    · rw [List.foldl_cons, List.filter_cons, if_neg (by simpa using h),
        absRowStep_short st row (by omega)]
      exact ih st

theorem absRowStep_no_markers (st : SchoolAbsenceStat) (row : List String)
    (h : 3 ≤ row.length →
      goContains (goTrimSpace (goToLower (row.getD 0 ""))) "schule" = false ∧
      goContains (goTrimSpace (goToLower (row.getD 0 ""))) "schulart" = false ∧
      goContains (goTrimSpace (goToLower (row.getD 0 ""))) "region" = false ∧
      goContains (goTrimSpace (goToLower (row.getD 0 ""))) "berlin" = false) :
    absRowStep st row = st := by
  rw [absRowStep]
  by_cases hlen : row.length < 3
  · rw [if_pos hlen]
  · rw [if_neg hlen]
    obtain ⟨h1, h2, h3, h4⟩ := h (by omega)
    rw [if_neg (by rw [h1]; simp), if_neg (by rw [h2]; simp), if_neg (by rw [h3]; simp),
      if_neg (by rw [h4]; simp)]

theorem absFold_no_markers (rows : List (List String)) (st : SchoolAbsenceStat)
    (h : ∀ row ∈ rows, 3 ≤ row.length →
      goContains (goTrimSpace (goToLower (row.getD 0 ""))) "schule" = false ∧
      goContains (goTrimSpace (goToLower (row.getD 0 ""))) "schulart" = false ∧
      goContains (goTrimSpace (goToLower (row.getD 0 ""))) "region" = false ∧
      goContains (goTrimSpace (goToLower (row.getD 0 ""))) "berlin" = false) :
    rows.foldl absRowStep st = st := by
  induction rows with
  | nil => rfl
  | cons row t ih =>
    rw [List.foldl_cons, absRowStep_no_markers st row (h row (by simp))]
    exact ih (fun r hr => h r (by simp [hr]))

/-- C10: for a table with at least 4 rows, absence normalization is always
present; the scan equals the scan over only the rows with at least 3 cells
(short rows are skipped without affecting the result); when no row's
lowercased trimmed label contains any of the four category markers the
record keeps all eight rate fields at 0; and a row whose label contains
"schulart" never overwrites the school-level pair. -/
theorem C10_normalize_absence (sn : String) (ts : Nat) :
    (∀ t : StatisticTable, 4 ≤ t.rows.length →
      NormalizeAbsenceTable sn (some t) ts ≠ none) ∧
    (∀ t : StatisticTable, 4 ≤ t.rows.length →
      NormalizeAbsenceTable sn (some t) ts =
        some ((t.rows.filter (fun row => 3 ≤ row.length)).foldl absRowStep
          (initAbsence sn ts))) ∧
    (∀ t : StatisticTable, 4 ≤ t.rows.length →
      (∀ row ∈ t.rows, 3 ≤ row.length →
        goContains (goTrimSpace (goToLower (row.getD 0 ""))) "schule" = false ∧
        goContains (goTrimSpace (goToLower (row.getD 0 ""))) "schulart" = false ∧
        goContains (goTrimSpace (goToLower (row.getD 0 ""))) "region" = false ∧
        goContains (goTrimSpace (goToLower (row.getD 0 ""))) "berlin" = false) →
      NormalizeAbsenceTable sn (some t) ts = some (initAbsence sn ts)) ∧
    (∀ (row : List String) (st : SchoolAbsenceStat),
      goContains (goTrimSpace (goToLower (row.getD 0 ""))) "schulart" = true →
      (absRowStep st row).schoolAbsenceRate = st.schoolAbsenceRate ∧
      (absRowStep st row).schoolUnexcusedRate = st.schoolUnexcusedRate) := by
  refine ⟨?_, ?_, ?_, ?_⟩
  · intro t h
    rw [NormalizeAbsenceTable, if_neg (by omega)]
    simp
  · intro t h
    rw [NormalizeAbsenceTable, if_neg (by omega)]
    rw [absFold_filter]
  · intro t h hmk
    rw [NormalizeAbsenceTable, if_neg (by omega)]
    rw [absFold_no_markers t.rows (initAbsence sn ts) hmk]
  · intro row st hsa
    rw [absRowStep]
    by_cases hlen : row.length < 3
    · rw [if_pos hlen]
      exact ⟨rfl, rfl⟩
    · rw [if_neg hlen]
      rw [if_neg (fun hc => hc.2 hsa), if_pos hsa]
      exact ⟨rfl, rfl⟩

/-- C10 witness: the absence-normalization facts at a concrete four-row
markerless table and at a concrete "schulart" row. -/
theorem C10_normalize_absence_witness :
    NormalizeAbsenceTable "01" (some ⟨[], [["x", "1", "2"], ["kurz"],
        ["y", "3", "4"], ["z", "5", "6"]], []⟩) 3 ≠ none ∧
    NormalizeAbsenceTable "01" (some ⟨[], [["x", "1", "2"], ["kurz"],
        ["y", "3", "4"], ["z", "5", "6"]], []⟩) 3 = some (initAbsence "01" 3) ∧
    (absRowStep (initAbsence "01" 3) ["der Schulart", "6,0", "2,0"]).schoolAbsenceRate =
      (initAbsence "01" 3).schoolAbsenceRate := by
  refine ⟨?_, ?_, ?_⟩
  · exact (C10_normalize_absence "01" 3).1 _ (by decide)
  · exact (C10_normalize_absence "01" 3).2.2.1 _ (by decide) (by decide)
  · exact ((C10_normalize_absence "01" 3).2.2.2 ["der Schulart", "6,0", "2,0"]
      (initAbsence "01" 3) (by decide)).1

/-- C4: with caching enabled, a put followed by a get of the same URL returns
a record equal to the one stored; a get on a fresh filesystem (no URL ever
written) is absent; and a get is absent — never an error — when the file at
the URL's cache path is unreadable (missing) or fails to deserialize, so
corruption downgrades to a cache miss. -/
theorem C4_cache_roundtrip :
    (∀ (fs : FileSys) (url : String) (r : SchoolDetailData),
      loadFromCache true (saveToCache true fs url r) url = some r) ∧
    (∀ url : String, loadFromCache true emptyFS url = none) ∧
    (∀ (fs : FileSys) (url : String), fs (getCachePath url) = none →
      loadFromCache true fs url = none) ∧
    (∀ (fs : FileSys) (url : String) (bytes : List Nat),
      fs (getCachePath url) = some bytes → decodeDetail bytes = none →
      loadFromCache true fs url = none) := by
  refine ⟨?_, ?_, ?_, ?_⟩
  · intro fs url r
    rw [loadFromCache, if_neg (by simp)]
    rw [saveToCache, if_neg (by simp)]
    rw [if_pos rfl]
    simp [decodeDetail_enc]
  · intro url
    rw [loadFromCache, if_neg (by simp)]
    rfl
  · intro fs url h
    rw [loadFromCache, if_neg (by simp), h]
  · intro fs url bytes hb hd
    rw [loadFromCache, if_neg (by simp), hb]
    simp [hd]

/-- C4 witness: the cache behaviors at a concrete URL, record, and a
concrete undecodable byte list. -/
theorem C4_cache_roundtrip_witness :
    loadFromCache true (saveToCache true emptyFS "u" (demoDetail "u")) "u" =
      some (demoDetail "u") ∧
    loadFromCache true emptyFS "u" = none ∧
    loadFromCache true (fun p => if p = getCachePath "u" then some [3] else none)
      "u" = none := by
  refine ⟨C4_cache_roundtrip.1 emptyFS "u" (demoDetail "u"),
    C4_cache_roundtrip.2.1 "u", ?_⟩
  exact C4_cache_roundtrip.2.2.2 _ "u" [3] (by simp) (by decide)

theorem goReplaceAll_del_char (s : String) (ch : Char) :
    goReplaceAll s (String.mk [ch]) "" =
      String.mk (s.data.filter (fun c => ¬ (c = ch))) := by
  show String.mk (List.intercalate ("" : String).data
      (((splitFuel [ch] s.data.length s.data).map String.mk).map String.data)) = _
  rw [List.map_map]
  rw [show ((String.data ∘ String.mk) : List Char → List Char) = id from rfl]
  rw [List.map_id]
  rw [show ("" : String).data = ([] : List Char) from rfl]
  rw [intercalate_nil_join]
  rw [splitFuel_flatten_filter ch s.data.length s.data (Nat.le_refl _)]

theorem goReplaceAll_swap_char (s : String) (ch d : Char) :
    goReplaceAll s (String.mk [ch]) (String.mk [d]) =
      String.mk (s.data.map (fun c => if c = ch then d else c)) := by
  show String.mk (List.intercalate (String.mk [d]).data
      (((splitFuel [ch] s.data.length s.data).map String.mk).map String.data)) = _
  rw [List.map_map]
  rw [show ((String.data ∘ String.mk) : List Char → List Char) = id from rfl]
  rw [List.map_id]
  rw [show (String.mk [d]).data = [d] from rfl]
  rw [splitFuel_intercalate_map ch d s.data.length s.data (Nat.le_refl _)]

theorem del_space (s : String) :
    goReplaceAll s " " "" = String.mk (s.data.filter (fun c => ¬ (c = ' '))) :=
  goReplaceAll_del_char s ' '

theorem del_percent (s : String) :
    goReplaceAll s "%" "" = String.mk (s.data.filter (fun c => ¬ (c = '%'))) :=
  goReplaceAll_del_char s '%'

theorem del_dot (s : String) :
    goReplaceAll s "." "" = String.mk (s.data.filter (fun c => ¬ (c = '.'))) :=
  goReplaceAll_del_char s '.'

theorem del_comma (s : String) :
    goReplaceAll s "," "" = String.mk (s.data.filter (fun c => ¬ (c = ','))) :=
  goReplaceAll_del_char s ','

theorem swap_comma_dot (s : String) :
    goReplaceAll s "," "." =
      String.mk (s.data.map (fun c => if c = ',' then '.' else c)) :=
  goReplaceAll_swap_char s ',' '.'

/-- C5: the worked examples of the numeric-normalization policy, plus the
policy itself: integer parsing is Atoi after trimming and deleting every
space, percent sign, dot and comma (one combined character filter), float
parsing is ParseFloat after trimming, deleting spaces and percent signs and
turning each comma into a dot, and on both paths a parse failure or empty
remainder yields 0 — the functions are total and never raise. -/
theorem C5_numeric_normalization :
    parseInt "1.234" = 1234 ∧
    (parseFloat "45,6 %").toQ = 45.6 ∧
    parseInt "" = 0 ∧
    (parseFloat "").toQ = 0 ∧
    (parseFloat "12,5").toQ = 12.5 ∧
    (∀ s : String, parseInt s =
      (let cleaned := String.mk ((goTrimSpace s).data.filter
        (fun c => ¬ (c = ' ' ∨ c = '%' ∨ c = '.' ∨ c = ',')));
      if cleaned = "" then 0 else
        match goAtoi cleaned with
        | none => 0
        | some v => v)) ∧
    (∀ s : String, parseFloat s =
      (let cleaned := String.mk (((goTrimSpace s).data.filter
          (fun c => ¬ (c = ' ' ∨ c = '%'))).map (fun c => if c = ',' then '.' else c));
      if cleaned = "" then goFloatZero else
        match goParseFloat cleaned with
        | none => goFloatZero
        | some v => v)) := by
  refine ⟨by decide, ?_, by decide, ?_, ?_, ?_, ?_⟩
  · rw [show parseFloat "45,6 %" = ⟨456, 1⟩ from by decide]
    norm_num [GoFloat.toQ]
  · rw [show parseFloat "" = goFloatZero from by decide]
    norm_num [GoFloat.toQ, goFloatZero]
  · rw [show parseFloat "12,5" = ⟨125, 1⟩ from by decide]
    norm_num [GoFloat.toQ]
  · intro s
    rw [parseInt]
    rw [del_space, del_percent]
    rw [show ∀ l : List Char, (String.mk l).data = l from fun l => rfl]
    rw [del_dot]
    rw [show ∀ l : List Char, (String.mk l).data = l from fun l => rfl]
    rw [del_comma]
    rw [show ∀ l : List Char, (String.mk l).data = l from fun l => rfl]
    rw [List.filter_filter, List.filter_filter, List.filter_filter]
    have hcong : List.filter
        (fun a => decide ¬ (a = ',') && decide ¬ (a = '.') && decide ¬ (a = '%') &&
          decide ¬ (a = ' '))
        (goTrimSpace s).data =
      List.filter (fun c => decide (¬ (c = ' ' ∨ c = '%' ∨ c = '.' ∨ c = ',')))
        (goTrimSpace s).data := by
      apply List.filter_congr
      intro a _
      by_cases h1 : a = ' ' <;> by_cases h2 : a = '%' <;> by_cases h3 : a = '.' <;>
        by_cases h4 : a = ',' <;> simp [h1, h2, h3, h4]
    rw [hcong]
  · intro s
    rw [parseFloat]
    rw [del_space, del_percent]
    rw [show ∀ l : List Char, (String.mk l).data = l from fun l => rfl]
    rw [swap_comma_dot]
    rw [show ∀ l : List Char, (String.mk l).data = l from fun l => rfl]
    rw [List.filter_filter]
    have hcong : List.filter
        (fun a => decide ¬ (a = '%') && decide ¬ (a = ' ')) (goTrimSpace s).data =
      List.filter (fun c => decide (¬ (c = ' ' ∨ c = '%'))) (goTrimSpace s).data := by
      apply List.filter_congr
      intro a _
      by_cases h1 : a = ' ' <;> by_cases h2 : a = '%' <;> simp [h1, h2]
    rw [hcong]

theorem intercalate_dropLast_getLast {α : Type} (sep : List α)
    (parts : List (List α)) (h : 2 ≤ parts.length) :
    List.intercalate sep parts =
      List.intercalate sep parts.dropLast ++ sep ++ ((parts.getLast?).getD []) := by
  induction parts with
  | nil => simp at h
  | cons a t ih =>
    cases t with
    | nil => simp at h
    | cons b t2 =>
      cases t2 with
      | nil => simp [List.intercalate, List.intersperse]
      | cons c t3 =>
        rw [intercalate_cons_of_ne_nil sep a (b :: c :: t3) (by simp)]
        rw [ih (by simp)]
        rw [show (a :: b :: c :: t3).dropLast = a :: (b :: c :: t3).dropLast from rfl]
        rw [intercalate_cons_of_ne_nil sep a ((b :: c :: t3).dropLast) (by simp)]
        rw [List.getLast?_cons_cons]
        simp [List.append_assoc]

/-- C6 (amended): the name/id parser scans left to right for the " - "
delimiter and splits at the FINAL delimiter of that non-overlapping scan
(which is the last occurrence except when occurrences overlap), returning
both components trimmed of surrounding whitespace: when the string contains
no " - " the whole trimmed string is the name and the id is empty, and
otherwise the string decomposes as name-part ++ " - " ++ id-part with a
delimiter-free id-part, the parser returning both parts trimmed.  The
worked examples of the specification hold as stated. -/
theorem C6_name_id_split :
    (∀ s : String, goContains s " - " = false →
      parseSchoolNameAndNumber s = (goTrimSpace s, "")) ∧
    (∀ s : String, goContains s " - " = true →
      ∃ n i : String,
        s = n ++ " - " ++ i ∧ goContains i " - " = false ∧
        parseSchoolNameAndNumber s = (goTrimSpace n, goTrimSpace i)) ∧
    parseSchoolNameAndNumber "Gymnasium Alpha - 01Y01" =
      ("Gymnasium Alpha", "01Y01") ∧
    parseSchoolNameAndNumber "NoDelimiterName" = ("NoDelimiterName", "") := by
  refine ⟨?_, ?_, by decide, by decide⟩
  · intro s h
    rw [parseSchoolNameAndNumber]
    by_cases hs : s = ""
    · rw [if_pos hs]
      subst hs
      decide
    · rw [if_neg hs]
      have hsp : splitFuel (" - ").data s.data.length s.data = [s.data] :=
        splitFuel_of_not_contains _ _ _ (Nat.le_refl _) h
      rw [show goSplit s " - " = (splitFuel (" - ").data s.data.length s.data).map
        String.mk from rfl]
      rw [hsp]
      rw [if_neg (by simp)]
  · intro s h
    have hsepne : (" - ").data ≠ [] := by decide
    have hs : s ≠ "" := by
      intro hs
      subst hs
      rw [show goContains "" " - " = containsCore (" - ").data [] from rfl,
        containsCore_nil_of_ne _ hsepne] at h
      exact Bool.false_ne_true h
    have hlen2 : 2 ≤ (splitFuel (" - ").data s.data.length s.data).length :=
      splitFuel_len_two_of_contains _ _ _ hsepne (Nat.le_refl _) h
    refine ⟨goJoin ((goSplit s " - ").dropLast) " - ",
      String.mk (((splitFuel (" - ").data s.data.length s.data).getLast?).getD []),
      ?_, ?_, ?_⟩
    · show s = String.mk ((goJoin ((goSplit s " - ").dropLast) " - ").data ++
        (" - ").data ++ ((splitFuel (" - ").data s.data.length s.data).getLast?).getD [])
      have hdata : (goJoin ((goSplit s " - ").dropLast) " - ").data =
          List.intercalate (" - ").data
            ((splitFuel (" - ").data s.data.length s.data).dropLast) := by
        show List.intercalate (" - ").data
            (((splitFuel (" - ").data s.data.length s.data).map String.mk).dropLast.map
              String.data) = _
        rw [← List.map_dropLast, List.map_map]
        rw [show ((String.data ∘ String.mk) : List Char → List Char) = id from rfl]
        rw [List.map_id]
      rw [hdata]
      rw [← intercalate_dropLast_getLast _ _ hlen2]
      rw [splitFuel_reconstruct _ _ _ hsepne (Nat.le_refl _)]
    · show containsCore (" - ").data
        (((splitFuel (" - ").data s.data.length s.data).getLast?).getD []) = false
      exact splitFuel_getLast_not_contains _ _ _ hsepne (Nat.le_refl _)
    · rw [parseSchoolNameAndNumber, if_neg hs]
      have hlenparts : 2 ≤ (goSplit s " - ").length := by
        show 2 ≤ ((splitFuel (" - ").data s.data.length s.data).map String.mk).length
        simpa using hlen2
      rw [if_pos hlenparts]
      have hlast : ((goSplit s " - ").getLast?).getD "" =
          String.mk (((splitFuel (" - ").data s.data.length s.data).getLast?).getD []) := by
        show (((splitFuel (" - ").data s.data.length s.data).map String.mk).getLast?).getD ""
          = _
        rw [List.getLast?_map]
        cases (splitFuel (" - ").data s.data.length s.data).getLast? with
        | none => rfl
        | some a => rfl
      rw [hlast]

/-- C6 witness: the split characterization applied at the specification's two
worked examples. -/
theorem C6_name_id_split_witness :
    parseSchoolNameAndNumber "NoDelimiterName" = (goTrimSpace "NoDelimiterName", "") ∧
    (∃ n i : String,
      "Gymnasium Alpha - 01Y01" = n ++ " - " ++ i ∧ goContains i " - " = false ∧
      parseSchoolNameAndNumber "Gymnasium Alpha - 01Y01" =
        (goTrimSpace n, goTrimSpace i)) :=
  ⟨C6_name_id_split.1 "NoDelimiterName" (by decide),
   C6_name_id_split.2.1 "Gymnasium Alpha - 01Y01" (by decide)⟩

/-- C6 counterexample: the parser does not split at the last occurrence of
" - ".  With overlapping occurrences ("a - - b") the left-to-right
non-overlapping scan splits earlier than the last occurrence, and a
trailing space shows the returned components are trimmed rather than the
raw text before/after the delimiter. -/
theorem C6_counterexample :
    parseSchoolNameAndNumber "a - - b" = ("a", "- b") ∧
    specSplitAtLastDelim "a - - b" = ("a -", "b") ∧
    parseSchoolNameAndNumber "a - - b" ≠ specSplitAtLastDelim "a - - b" ∧
    parseSchoolNameAndNumber "Gymnasium Alpha - 01Y01 " =
      ("Gymnasium Alpha", "01Y01") ∧
    specSplitAtLastDelim "Gymnasium Alpha - 01Y01 " =
      ("Gymnasium Alpha", "01Y01 ") ∧
    parseSchoolNameAndNumber "Gymnasium Alpha - 01Y01 " ≠
      specSplitAtLastDelim "Gymnasium Alpha - 01Y01 " := by
  refine ⟨by decide, by decide, by decide, by decide, by decide, by decide⟩

theorem findTable_mkDoc (children : List HNode) (inner : HNodeList) :
    findTable (mkDoc (HNode.elem "table" inner :: children)) =
      some (HNode.elem "table" inner) := rfl

theorem parseTableHTML_of_found (doc tn : HNode) (h : findTable doc = some tn) :
    parseTableHTML doc = some ⟨(parseNode tn false ⟨[], [], true⟩).headers,
      (parseNode tn false ⟨[], [], true⟩).rows, []⟩ := by
  rw [parseTableHTML, h]

theorem parseNode_table (inner : HNodeList) (st : TState) :
    parseNode (HNode.elem "table" inner) false st = parseNodeList inner false st := by
  rw [parseNode, if_neg (by decide), if_neg (by decide), if_neg (by decide)]

/-- C2 (amended): with no thead/tbody wrapping, the first row becomes the
headers and all subsequent rows the data rows; when a thead is present every
row inside it is written to the headers — so the LAST thead row is the one
kept — and tbody rows are always data rows.  Rows are built from td cells
whose text is trimmed by extraction; rows must be non-empty to count. -/
theorem C2_table_extraction :
    (∀ rs : List (List String), rs ≠ [] → (∀ r ∈ rs, r ≠ []) →
      parseTableHTML (mkDoc [mkTable (rs.map mkTr)]) =
        some ⟨(rs.headD []).map goTrimSpace, rs.tail.map (List.map goTrimSpace), []⟩) ∧
    (∀ hs bs : List (List String), hs ≠ [] → (∀ r ∈ hs, r ≠ []) →
      (∀ r ∈ bs, r ≠ []) →
      parseTableHTML (mkDoc [mkTable [mkThead hs, mkTbody bs]]) =
        some ⟨((hs.getLast?).getD []).map goTrimSpace,
          bs.map (List.map goTrimSpace), []⟩) := by
  constructor
  · intro rs hrs hne
    rw [show mkTable (rs.map mkTr) =
      HNode.elem "table" (toHNodeList (rs.map mkTr)) from rfl]
    rw [parseTableHTML_of_found _ (HNode.elem "table" (toHNodeList (rs.map mkTr)))
      (findTable_mkDoc [] _)]
    rw [parseNode_table]
    rw [parseList_rows_first rs ⟨[], [], true⟩ rfl hne hrs]
    simp
  · intro hs bs hhs hneh hneb
    rw [show mkTable [mkThead hs, mkTbody bs] =
      HNode.elem "table" (toHNodeList [mkThead hs, mkTbody bs]) from rfl]
    rw [parseTableHTML_of_found _
      (HNode.elem "table" (toHNodeList [mkThead hs, mkTbody bs]))
      (findTable_mkDoc [] _)]
    rw [parseNode_table]
    rw [show toHNodeList [mkThead hs, mkTbody bs] =
      .cons (mkThead hs) (.cons (mkTbody bs) .nil) from rfl]
    rw [parseNodeList]
    rw [show mkThead hs = .elem "thead" (toHNodeList (hs.map mkTr)) from rfl]
    rw [parseNode, if_pos rfl]
    rw [parseList_rows_thead hs ⟨[], [], true⟩ hneh hhs]
    rw [parseNodeList]
    rw [show mkTbody bs = .elem "tbody" (toHNodeList (bs.map mkTr)) from rfl]
    rw [parseNode, if_neg (by decide), if_pos rfl]
    rw [parseList_rows_false bs _ rfl hneb]
    rfl

/-- C2 witness: the amended parsing rules applied at the specification's
example shapes — six flat rows, and one thead row over three tbody rows. -/
theorem C2_table_extraction_witness :
    parseTableHTML (mkDoc [mkTable ([["h1", "h2"], ["1", "2"], ["3", "4"],
        ["5", "6"], ["7", "8"], ["9", "0"]].map mkTr)]) =
      some ⟨["h1", "h2"], [["1", "2"], ["3", "4"], ["5", "6"], ["7", "8"],
        ["9", "0"]], []⟩ ∧
    parseTableHTML (mkDoc [mkTable [mkThead [["h1", "h2"]],
        mkTbody [["1", "2"], ["3", "4"], ["5", "6"]]]]) =
      some ⟨["h1", "h2"], [["1", "2"], ["3", "4"], ["5", "6"]], []⟩ := by
  constructor
  · have h := C2_table_extraction.1 [["h1", "h2"], ["1", "2"], ["3", "4"],
      ["5", "6"], ["7", "8"], ["9", "0"]] (by decide) (by decide)
    rw [h]
    decide
  · have h := C2_table_extraction.2 [["h1", "h2"]]
      [["1", "2"], ["3", "4"], ["5", "6"]] (by decide) (by decide) (by decide)
    rw [h]
    decide

/-- C2 counterexample: with a thead of TWO rows, the headers kept are those
of the second (last) thead row, not the first — each thead row overwrites
the previous headers — refuting "only the first is kept". -/
theorem C2_counterexample :
    parseTableHTML (mkDoc [mkTable [mkThead [["first1", "first2"],
        ["second1", "second2"]], mkTbody [["1", "2"]]]]) =
      some ⟨["second1", "second2"], [["1", "2"]], []⟩ ∧
    ¬ (parseTableHTML (mkDoc [mkTable [mkThead [["first1", "first2"],
        ["second1", "second2"]], mkTbody [["1", "2"]]]]) =
      some ⟨["first1", "first2"], [["1", "2"]], []⟩) := by
  refine ⟨by decide, by decide⟩

/-- C3 (amended): the extractor returns absent exactly when the fragment has
no table element (which covers the empty fragment); once a table element is
found the result is always present, and in particular the empty table
fragment yields a present table with no headers and no rows, not absent. -/
theorem C3_absent_on_no_table :
    (∀ doc : HNode, findTable doc = none → parseTableHTML doc = none) ∧
    (∀ (doc tn : HNode), findTable doc = some tn → parseTableHTML doc ≠ none) ∧
    parseTableHTML (mkDoc [mkTable []]) = some ⟨[], [], []⟩ := by
  refine ⟨?_, ?_, by decide⟩
  · intro doc h
    rw [parseTableHTML, h]
  · intro doc tn h
    rw [parseTableHTML, h]
    simp

/-- C3 witness: the absent case at a table-free fragment and the present
case at the empty table. -/
theorem C3_absent_on_no_table_witness :
    parseTableHTML (mkDoc [HNode.text "no tables here"]) = none ∧
    parseTableHTML (mkDoc [mkTable []]) ≠ none := by
  refine ⟨C3_absent_on_no_table.1 _ (by decide), ?_⟩
  exact C3_absent_on_no_table.2.1 _ (mkTable []) (by decide)

/-- C3 counterexample: parsing the empty table fragment "<table></table>"
returns a present (empty) table, not absent. -/
theorem C3_counterexample :
    parseTableHTML (mkDoc [mkTable []]) ≠ none := by decide

/-- C8 (amended): a single link whose cache probe misses and whose harvest
fails is logged and skipped — the loop continues over the remaining links
with all accumulators untouched except the failure count — and every link is
accounted for as either an accumulated record or a logged failure.  In the
five-URL scenario with URL 3 timing out, 4 records are harvested and
persisted, 1 failure is logged, the run summary reports total=4 (from_cache
0, newly_scraped 4) — harvest failures are not counted in it — the store
phase reports success=4, errors=0, and the run returns normally. -/
theorem C8_failure_isolation :
    (∀ (useCache : Bool) (scrape : String → Option SchoolDetailData)
        (link : String) (rest : List String) (st : ScrapeState),
      loadFromCache useCache st.fs link = none → scrape link = none →
      scrapeLinksLoop useCache scrape (link :: rest) st =
        scrapeLinksLoop useCache scrape rest
          { st with failCount := st.failCount + 1 }) ∧
    (∀ (useCache : Bool) (scrape : String → Option SchoolDetailData)
        (links : List String) (st : ScrapeState),
      (scrapeLinksLoop useCache scrape links st).details.length +
          (scrapeLinksLoop useCache scrape links st).failCount =
        st.details.length + st.failCount + links.length) ∧
    demoRun.1 = ⟨4, 0, 4⟩ ∧
    (ScrapeSchoolDetails true demoScrape demoLinks emptyFS).1.failCount = 1 ∧
    demoRun.2.1.successCount = 4 ∧
    demoRun.2.1.errorCount = 0 ∧
    demoRun.2.2 = true ∧
    demoRun.2.1.detailRows =
      [demoDetail "u1", demoDetail "u2", demoDetail "u4", demoDetail "u5"] := by
  refine ⟨?_, ?_, by decide, by decide, by decide, by decide, by decide, by decide⟩
  · intro useCache scrape link rest st h1 h2
    rw [scrapeLinksLoop, h1, h2]
  · intro useCache scrape links st
    induction links generalizing st with
    | nil => rfl
    | cons link rest ih =>
      rw [scrapeLinksLoop]
      cases hc : loadFromCache useCache st.fs link with
      | some d =>
        simp only
        rw [ih]
        simp
        omega
      | none =>
        simp only
        cases hs : scrape link with
        | none =>
          rw [ih]
          simp
          omega
        | some d =>
          simp only
          rw [ih]
          simp
          omega

/-- C8 witness: the isolation step and the accounting law at concrete inputs
from the five-URL scenario. -/
theorem C8_failure_isolation_witness :
    scrapeLinksLoop true demoScrape ["u3", "u4", "u5"] ⟨[], emptyFS, 0, 0, 0⟩ =
      scrapeLinksLoop true demoScrape ["u4", "u5"] ⟨[], emptyFS, 0, 0, 1⟩ ∧
    (scrapeLinksLoop true demoScrape demoLinks ⟨[], emptyFS, 0, 0, 0⟩).details.length +
        (scrapeLinksLoop true demoScrape demoLinks ⟨[], emptyFS, 0, 0, 0⟩).failCount =
      0 + 0 + demoLinks.length := by
  constructor
  · exact C8_failure_isolation.1 true demoScrape "u3" ["u4", "u5"]
      ⟨[], emptyFS, 0, 0, 0⟩ (by decide) (by decide)
  · exact C8_failure_isolation.2.1 true demoScrape demoLinks ⟨[], emptyFS, 0, 0, 0⟩

/-- C8 counterexample: in the five-URL scenario with URL 3 timing out, the
run summary logs total=4 (the accumulated records) and the store phase
counts 0 errors (harvest failures are logged but not tallied), so the claim
that the summary reports total=5 and errors=1 is false; the run does return
normally with 4 records persisted. -/
theorem C8_counterexample :
    demoRun.1.total = 4 ∧ demoRun.2.1.errorCount = 0 ∧
    ¬ (demoRun.1.total = 5 ∧ demoRun.2.1.errorCount = 1) := by
  refine ⟨by decide, by decide, by decide⟩
